import Mathlib

/-!
Verification of the per-request span lifecycle tracker of `django_opentracing`
(`src/django_opentracing/tracing.py`), as a shallow embedding.

Modelling conventions:
* Python objects that only serve as identities (requests, spans, scopes,
  tracer implementations) are modelled by `Nat` identifiers.
* Python `dict`s whose contents the code inspects per key
  (`self._current_scopes`, the store of live span objects) are modelled as
  functions `Nat → Option _`; the Django header mapping, which is built up
  entry by entry and handed to the tracer whole, is modelled as an
  insertion-ordered association list.
* Fallible calls into the external tracer / callback are modelled in
  `Except PyErr`; an `Oracle` chooses, per primitive call (numbered by a
  running call counter), whether that call raises, and what `extract`
  returns for a given carrier.  This makes "the code never lets an
  exception escape" a statement over all oracles.
* Exceptions do not roll back state, so every operation returns
  `Except PyErr _ × St` with the state at the point of the raise.
-/

namespace DjangoOpentracing

/-- A Python exception value (`Exception` subclasses relevant here).
`invalidCarrier` and `spanContextCorrupted` model
`opentracing.InvalidCarrierException` and
`opentracing.SpanContextCorruptedException`; `valueError` models
`ValueError`; `other` stands for any other exception. -/
inductive PyErr where
  | invalidCarrier
  | spanContextCorrupted
  | valueError (msg : String)
  | other (msg : String)
deriving DecidableEq

/-- A span context, as returned by `tracer.extract`; identities only. -/
abbrev SpanContext := Nat

/-- A value stored in a span tag (`set_tag` receives strings, booleans and
integers in this code). -/
inductive TagValue where
  | str (s : String)
  | boolV (b : Bool)
  | int (n : Int)
deriving DecidableEq

/-- A value inside a `log_kv` record: the strings the code passes, or the
error object attached under `error.object`. -/
inductive LogValue where
  | str (s : String)
  | errObj (e : PyErr)
deriving DecidableEq

/-- The first argument the code hands to `tracer.inject`.  In Python this is
dynamically typed: `_apply_tracing` passes the `Scope` object itself
(`self.tracer.inject(scope, Format.HTTP_HEADERS, headers)`), while the
OpenTracing API expects a `SpanContext`; the two possibilities are kept
apart here. -/
inductive InjectArg where
  | scopeArg (scopeId : Nat)
  | contextArg (ctx : SpanContext)
deriving DecidableEq

/-- Observable calls made to the outside world (tracer propagation calls and
`logging.error`). -/
inductive Event where
  | extractCall (carrier : List (String × String))
  | injectCall (arg : InjectArg) (carrier : List (String × String))
  | logErrorCall (msg : String)
deriving DecidableEq

/-- The record behind one `Scope`/`Span` pair created by
`start_active_span` (the code always uses `scope.span`, so a scope and its
span share one identifier). -/
structure SpanRec where
  operationName : String
  parent : Option SpanContext
  ctx : SpanContext
  tags : List (String × TagValue)
  logs : List (List (String × LogValue))
  scopeClosed : Bool
deriving DecidableEq

/-- Mutable world state threaded through the tracker: the
`self._current_scopes` dict, the store of live scope/span objects, the
fresh-identifier counter of the tracer, a running counter of fallible
primitive calls (consumed by the failure oracle), and the event log. -/
structure St where
  currentScopes : Nat → Option (List Nat)
  store : Nat → Option SpanRec
  nextId : Nat
  calls : Nat
  events : List Event

/-- Behaviour of the external world: what `tracer.extract` returns for a
carrier, and which numbered primitive call (if any) raises which
exception. -/
structure Oracle where
  extractO : List (String × String) → Except PyErr SpanContext
  failO : Nat → Option PyErr

/-- A Django `HttpRequest`, restricted to what `tracing.py` reads:
its identity (dict key), `request.META`, `request.method`,
`request.get_full_path()`, and the attributes visible to
`hasattr`/`getattr` with their `str(...)` images. -/
structure Request where
  key : Nat
  meta : List (String × String)
  method : String
  fullPath : String
  attrs : List (String × String)

/-- A Python value passed as `start_span_cb`, abstracted to whether
`callable(...)` holds of it. -/
inductive PyValue where
  | callableV
  | notCallableV
deriving DecidableEq

/-- The `DjangoTracing` instance configuration (`_tracer_implementation`,
`_start_span_cb`, `_trace_all`); the mutable `_current_scopes` dict lives
in `St`. -/
structure DjangoTracing where
  tracerImplementation : Option Nat
  startSpanCb : Option PyValue
  traceAll : Bool
deriving DecidableEq

/-- A Django response, restricted to `response.status_code`. -/
structure Response where
  statusCode : Int
deriving DecidableEq

/-- Pointwise update of a function-modelled dict (`d[k] = v` / `del d[k]`). -/
def fupdate {α : Type} (f : Nat → Option α) (k : Nat) (v : Option α) : Nat → Option α :=
  fun j => if j = k then v else f j

/-- Lookup in an insertion-ordered association list (Python `dict` access). -/
def dlookup {α : Type} [DecidableEq α] {β : Type} : List (α × β) → α → Option β
  | [], _ => none
  | (k0, v0) :: rest, k => if k = k0 then some v0 else dlookup rest k

/-- Update `d[k] = v` on an insertion-ordered association list: replace the entry
in place when the key is present, otherwise append it. -/
def dinsert {α : Type} [DecidableEq α] {β : Type} : List (α × β) → α → β → List (α × β)
  | [], k, v => [(k, v)]
  | (k0, v0) :: rest, k, v => if k = k0 then (k, v) :: rest else (k0, v0) :: dinsert rest k v

/-- Python `str.lower()`, modelled charwise (HTTP header keys are ASCII,
where per-character lowering coincides with Python's). -/
def pyLower (s : String) : String :=
  String.mk (s.data.map Char.toLower)

/-- Python `str.replace('_', '-')`: the pattern is a single character, so
substring replacement coincides with charwise replacement. -/
def pyReplaceUnderscore (s : String) : String :=
  String.mk (s.data.map (fun c => if c = '_' then '-' else c))

/-- One header key as normalized by `_apply_tracing`:
`k.lower().replace('_', '-')`, then `k[5:]` if the result starts with
`'http-'` (`k.startswith('http-')` is prefix comparison, `k[5:]` drops the
first five characters). -/
def normalizeKey (k : String) : String :=
  let k1 := pyReplaceUnderscore (pyLower k)
  if "http-".data.isPrefixOf k1.data then String.mk (k1.data.drop 5) else k1

/-- The `headers` dict built by the loop at the top of `_apply_tracing`
from `request.META`. -/
def buildHeaders (meta : List (String × String)) : List (String × String) :=
  meta.foldl (fun h p => dinsert h (normalizeKey p.1) p.2) []

/-- Model of `logging.error(msg)`, recorded as an event. -/
def stLogError (st : St) (msg : String) : St :=
  { st with events := st.events ++ [.logErrorCall msg] }

/-- Model of `tracer.extract(Format.HTTP_HEADERS, headers)`: records the call and
returns whatever the oracle assigns to this carrier. -/
def tracerExtract (o : Oracle) (carrier : List (String × String)) (st : St) :
    Except PyErr SpanContext × St :=
  (o.extractO carrier, { st with events := st.events ++ [.extractCall carrier] })

/-- Model of `tracer.start_active_span(name, child_of=parent)`: may raise per the
oracle; otherwise allocates a fresh scope/span with the given parent. -/
def startActiveSpan (o : Oracle) (name : String) (parent : Option SpanContext) (st : St) :
    Except PyErr Nat × St :=
  let st1 := { st with calls := st.calls + 1 }
  match o.failO st.calls with
  | some e => (.error e, st1)
  | none =>
      (.ok st1.nextId,
        { st1 with
          nextId := st1.nextId + 1,
          store := fupdate st1.store st1.nextId
            (some { operationName := name, parent := parent, ctx := st1.nextId,
                    tags := [], logs := [], scopeClosed := false }) })

/-- Model of `tracer.inject(arg, Format.HTTP_HEADERS, carrier)`: the call is recorded
with the exact argument the code passes; it may then raise per the
oracle. -/
def tracerInject (o : Oracle) (arg : InjectArg) (carrier : List (String × String)) (st : St) :
    Except PyErr Unit × St :=
  let st1 := { st with
    calls := st.calls + 1,
    events := st.events ++ [.injectCall arg carrier] }
  match o.failO st.calls with
  | some e => (.error e, st1)
  | none => (.ok (), st1)

/-- Model of `scope.span.set_tag(k, v)`: may raise per the oracle; otherwise updates
the tag dict of the span record. -/
def spanSetTag (o : Oracle) (sc : Nat) (k : String) (v : TagValue) (st : St) :
    Except PyErr Unit × St :=
  let st1 := { st with calls := st.calls + 1 }
  match o.failO st.calls with
  | some e => (.error e, st1)
  | none =>
      match st1.store sc with
      | some sr =>
          (.ok (), { st1 with store := fupdate st1.store sc (some { sr with tags := dinsert sr.tags k v }) })
      | none => (.ok (), st1)

/-- Model of `scope.span.log_kv(entry)`: may raise per the oracle; otherwise appends
the key-value record to the span's log. -/
def spanLogKv (o : Oracle) (sc : Nat) (entry : List (String × LogValue)) (st : St) :
    Except PyErr Unit × St :=
  let st1 := { st with calls := st.calls + 1 }
  match o.failO st.calls with
  | some e => (.error e, st1)
  | none =>
      match st1.store sc with
      | some sr =>
          (.ok (), { st1 with store := fupdate st1.store sc (some { sr with logs := sr.logs ++ [entry] }) })
      | none => (.ok (), st1)

/-- Model of `scope.close()`: may raise per the oracle; otherwise marks the scope's
record closed. -/
def scopeClose (o : Oracle) (sc : Nat) (st : St) : Except PyErr Unit × St :=
  let st1 := { st with calls := st.calls + 1 }
  match o.failO st.calls with
  | some e => (.error e, st1)
  | none =>
      match st1.store sc with
      | some sr =>
          (.ok (), { st1 with store := fupdate st1.store sc (some { sr with scopeClosed := true }) })
      | none => (.ok (), st1)

/-- Is this exception caught by the inner
`except (InvalidCarrierException, SpanContextCorruptedException)` clause of
`_apply_tracing`? -/
def failIsCatchable : PyErr → Bool
  | .invalidCarrier => true
  | .spanContextCorrupted => true
  | _ => false

/-- The `try`/`except` block in the middle of `_apply_tracing`:
`extract` then `start_active_span(child_of=...)`; on
`InvalidCarrierException`/`SpanContextCorruptedException` from that block,
start a root span instead and inject the scope back into the headers. -/
def startSpanSection (o : Oracle) (name : String) (headers : List (String × String)) (st : St) :
    Except PyErr Nat × St :=
  let inner : Except PyErr Nat × St :=
    match tracerExtract o headers st with
    | (.error e, st') => (.error e, st')
    | (.ok spanCtx, st') => startActiveSpan o name (some spanCtx) st'
  match inner with
  | (.ok sc, st') => (.ok sc, st')
  | (.error e, st') =>
      if failIsCatchable e then
        match startActiveSpan o name none st' with
        | (.error e2, st2) => (.error e2, st2)
        | (.ok sc, st2) =>
            match tracerInject o (.scopeArg sc) headers st2 with
            | (.error e2, st3) => (.error e2, st3)
            | (.ok _, st3) => (.ok sc, st3)
      else (.error e, st')

/-- Model of `self._current_scopes.setdefault(request, []).append(scope)`. -/
def pushScope (st : St) (key : Nat) (sc : Nat) : St :=
  { st with currentScopes :=
      fupdate st.currentScopes key (some (((st.currentScopes key).getD []) ++ [sc])) }

/-- The `for attr in attributes` loop of `_apply_tracing`: for each listed
attribute the request exposes whose `str(...)` image is non-empty, set it
as a tag on the span. -/
def setAttrTags (o : Oracle) (sc : Nat) (req : Request) :
    List String → St → Except PyErr Unit × St
  | [], st => (.ok (), st)
  | a :: rest, st =>
      match dlookup req.attrs a with
      | none => setAttrTags o sc req rest st
      | some payload =>
          if payload = "" then setAttrTags o sc req rest st
          else
            match spanSetTag o sc a (.str payload) st with
            | (.error e, st') => (.error e, st')
            | (.ok _, st') => setAttrTags o sc req rest st'

/-- Model of `DjangoTracing._call_start_span_cb`: nothing when no callback is
configured; otherwise the callback runs and any exception it raises is
swallowed (`except Exception: pass`). -/
def callStartSpanCb (o : Oracle) (dt : DjangoTracing) (st : St) :
    Except PyErr Unit × St :=
  match dt.startSpanCb with
  | none => (.ok (), st)
  | some _ =>
      let st1 := { st with calls := st.calls + 1 }
      match o.failO st.calls with
      | some _ => (.ok (), st1)
      | none => (.ok (), st1)

/-- The body of `DjangoTracing._apply_tracing` inside its outer `try`:
normalize headers, extract/start (with root-span fallback), push the scope
onto the request's stack, set the standard tags, tag the requested
attributes, invoke the start-span callback, and return the scope. -/
def applyTracingBody (o : Oracle) (dt : DjangoTracing) (req : Request) (viewName : String)
    (attributes : List String) (st : St) : Except PyErr Nat × St :=
  let headers := buildHeaders req.meta
  match startSpanSection o viewName headers st with
  | (.error e, st1) => (.error e, st1)
  | (.ok sc, st1) =>
      let st2 := pushScope st1 req.key sc
      match spanSetTag o sc "component" (.str "django") st2 with
      | (.error e, st3) => (.error e, st3)
      | (.ok _, st3) =>
      match spanSetTag o sc "span.kind" (.str "server") st3 with
      | (.error e, st4) => (.error e, st4)
      | (.ok _, st4) =>
      match spanSetTag o sc "http.method" (.str req.method) st4 with
      | (.error e, st5) => (.error e, st5)
      | (.ok _, st5) =>
      match spanSetTag o sc "http.url" (.str req.fullPath) st5 with
      | (.error e, st6) => (.error e, st6)
      | (.ok _, st6) =>
      match setAttrTags o sc req attributes st6 with
      | (.error e, st7) => (.error e, st7)
      | (.ok _, st7) =>
      match callStartSpanCb o dt st7 with
      | (.error e, st8) => (.error e, st8)
      | (.ok _, st8) => (.ok sc, st8)

/-- Model of `DjangoTracing._apply_tracing`: the body wrapped in
`try ... except Exception as exc: logging.error(...)`; on an exception the
function logs and falls off the end, returning `None`. -/
def _apply_tracing (o : Oracle) (dt : DjangoTracing) (req : Request) (viewName : String)
    (attributes : List String) (st : St) : Except PyErr (Option Nat) × St :=
  match applyTracingBody o dt req viewName attributes st with
  | (.ok sc, st') => (.ok (some sc), st')
  | (.error _, st') => (.ok none, stLogError st' "Exception during apply tracing")

/-- The body of `DjangoTracing._finish_tracing` inside its outer `try`:
no-op when the request has no stack; otherwise pop the last scope
(`list.pop()` raises `IndexError` on an empty list), delete the dict entry
once its list is empty, tag the span with the error and/or the response
status code, and close the scope.  (The source's `if scope is None: return`
guard is unreachable here: only scopes returned by `start_active_span` are
ever appended.) -/
def finishTracingBody (o : Oracle) (req : Request) (response : Option Response)
    (error : Option PyErr) (st : St) : Except PyErr Unit × St :=
  match st.currentScopes req.key with
  | none => (.ok (), st)
  | some scopes =>
      match scopes.getLast? with
      | none => (.error (.other "IndexError: pop from empty list"), st)
      | some sc =>
          let remaining := scopes.dropLast
          let st1 := { st with currentScopes := fupdate st.currentScopes req.key (some remaining) }
          let st2 :=
            if remaining.isEmpty then
              { st1 with currentScopes := fupdate st1.currentScopes req.key none }
            else st1
          let errStep : Except PyErr Unit × St :=
            match error with
            | some e =>
                match spanSetTag o sc "error" (.boolV true) st2 with
                | (.error e2, stE) => (.error e2, stE)
                | (.ok _, stE) =>
                    spanLogKv o sc [("event", .str "error"), ("error.object", .errObj e)] stE
            | none => (.ok (), st2)
          match errStep with
          | (.error e2, st3) => (.error e2, st3)
          | (.ok _, st3) =>
              let respStep : Except PyErr Unit × St :=
                match response with
                | some resp => spanSetTag o sc "http.status_code" (.int resp.statusCode) st3
                | none => (.ok (), st3)
              match respStep with
              | (.error e2, st4) => (.error e2, st4)
              | (.ok _, st4) => scopeClose o sc st4

/-- Model of `DjangoTracing._finish_tracing`: the body wrapped in
`try ... except Exception as exc: logging.error(...)`. -/
def _finish_tracing (o : Oracle) (req : Request) (response : Option Response)
    (error : Option PyErr) (st : St) : Except PyErr Unit × St :=
  match finishTracingBody o req response error st with
  | (.ok _, st') => (.ok (), st')
  | (.error _, st') => (.ok (), stLogError st' "Exception during finish tracing")

/-- Model of `DjangoTracing.get_span`: `scopes = self._current_scopes.get(request)`;
if that is truthy (a non-empty list), return `scopes[0].span`, else
`None`. -/
def get_span (st : St) (req : Request) : Option Nat :=
  match st.currentScopes req.key with
  | none => none
  | some [] => none
  | some (x :: _) => some x

/-- A view function / handler, as an arbitrary transformer of the world
state that either returns a response or raises. -/
def Handler : Type := St → Except PyErr Response × St

/-- The `wrapper` produced by `DjangoTracing.trace(view, *attributes)`
around a handler: skip instrumentation when `self._trace_all and view`;
otherwise `try: _apply_tracing(...); r = view_func(...)`, on an exception
`_finish_tracing(request, error=exc); raise`, and on normal completion
`_finish_tracing(request, r); return r`. -/
def traceWrapper (o : Oracle) (dt : DjangoTracing) (view : Bool) (viewName : String)
    (attributes : List String) (h : Handler) (req : Request) (st : St) :
    Except PyErr Response × St :=
  if dt.traceAll && view then h st
  else
    let tryRes : Except PyErr Response × St :=
      match _apply_tracing o dt req viewName attributes st with
      | (.error e, st1) => (.error e, st1)
      | (.ok _, st1) => h st1
    match tryRes with
    | (.error exc, st1) =>
        match _finish_tracing o req none (some exc) st1 with
        | (.error e2, st2) => (.error e2, st2)
        | (.ok _, st2) => (.error exc, st2)
    | (.ok r, st1) =>
        match _finish_tracing o req (some r) none st1 with
        | (.error e2, st2) => (.error e2, st2)
        | (.ok _, st2) => (.ok r, st2)

/-- Does `callable(v)` hold of the Python value? -/
def pyCallable : PyValue → Bool
  | .callableV => true
  | .notCallableV => false

/-- Model of `DjangoTracing.__init__(tracer, start_span_cb)`: raise `ValueError` when
`start_span_cb is not None and not callable(start_span_cb)`; otherwise
return the configured instance together with its fresh, empty
`_current_scopes` dict (`_trace_all = False`). -/
def DjangoTracing.init (tracer : Option Nat) (start_span_cb : Option PyValue) :
    Except PyErr (DjangoTracing × (Nat → Option (List Nat))) :=
  if (match start_span_cb with
      | some v => !(pyCallable v)
      | none => false) then
    .error (.valueError "start_span_cb is not callable")
  else
    .ok ({ tracerImplementation := tracer, startSpanCb := start_span_cb, traceAll := false },
         fun _ => none)

/-- Process-wide state touched by `initialize_global_tracer`: the function
attribute `initialize_global_tracer.complete` and `opentracing.tracer`
(identified by a `Nat`; `0` stands for the default no-op tracer). -/
structure GlobalState where
  complete : Bool
  globalTracer : Nat
deriving DecidableEq

/-- Model of `initialize_global_tracer(tracing)` from `tracing.py`: return
immediately once `complete` is set; otherwise install
`tracing._tracer_implementation` as `opentracing.tracer` when it is not
`None`, and set `complete`. -/
def init_global_tracer (tracing : DjangoTracing) (g : GlobalState) : GlobalState :=
  if g.complete then g
  else
    let g1 :=
      match tracing.tracerImplementation with
      | some tr => { g with globalTracer := tr }
      | none => g
    { g1 with complete := true }

/-! ### Dictionary lemmas -/

theorem fupdate_self {α : Type} (f : Nat → Option α) (k : Nat) (v : Option α) :
    fupdate f k v k = v := by
  simp [fupdate]

theorem fupdate_ne {α : Type} (f : Nat → Option α) (k j : Nat) (v : Option α) (h : j ≠ k) :
    fupdate f k v j = f j := by
  simp [fupdate, h]

theorem dlookup_dinsert_self {α : Type} [DecidableEq α] {β : Type}
    (l : List (α × β)) (k : α) (v : β) : dlookup (dinsert l k v) k = some v := by
  induction l with
  | nil => simp [dinsert, dlookup]
  | cons p rest ih =>
      by_cases h : k = p.1
      · simp [dinsert, dlookup, h]
      · simp [dinsert, dlookup, h, ih]

theorem dlookup_dinsert_ne {α : Type} [DecidableEq α] {β : Type}
    (l : List (α × β)) (k j : α) (v : β) (h : j ≠ k) :
    dlookup (dinsert l k v) j = dlookup l j := by
  induction l with
  | nil => simp [dinsert, dlookup, h]
  | cons p rest ih =>
      by_cases hk : k = p.1
      · subst hk
        simp [dinsert, dlookup, h]
      · by_cases hj : j = p.1
        · simp [dinsert, dlookup, hk, hj]
        · simp [dinsert, dlookup, hk, hj, ih]

theorem mem_dinsert {α : Type} [DecidableEq α] {β : Type}
    (l : List (α × β)) (k : α) (v : β) :
    ∀ p ∈ dinsert l k v, p ∈ l ∨ p = (k, v) := by
  induction l with
  | nil => simp [dinsert]
  | cons q rest ih =>
      intro p hp
      by_cases hk : k = q.1
      · simp only [dinsert, hk, if_pos rfl] at hp
        rcases List.mem_cons.mp hp with h | h
        · right; rw [h, hk]
        · left; exact List.mem_cons_of_mem _ h
      · simp only [dinsert, if_neg hk] at hp
        rcases List.mem_cons.mp hp with h | h
        · left; rw [h]; exact List.mem_cons_self _ _
        · rcases ih p h with h' | h'
          · left; exact List.mem_cons_of_mem _ h'
          · right; exact h'

/-! ### Frame and success lemmas for the tracer primitives -/

theorem tracerExtract_spec (o : Oracle) (c : List (String × String)) (st : St) :
    tracerExtract o c st =
      (o.extractO c, { st with events := st.events ++ [.extractCall c] }) := rfl

theorem startActiveSpan_noFail (o : Oracle) (name : String) (parent : Option SpanContext)
    (st : St) (hf : o.failO st.calls = none) :
    startActiveSpan o name parent st =
      (.ok st.nextId,
        { st with
          calls := st.calls + 1, nextId := st.nextId + 1,
          store := fupdate st.store st.nextId
            (some { operationName := name, parent := parent, ctx := st.nextId,
                    tags := [], logs := [], scopeClosed := false }) }) := by
  simp [startActiveSpan, hf]

theorem startActiveSpan_frame (o : Oracle) (name : String) (parent : Option SpanContext)
    (st : St) :
    ((startActiveSpan o name parent st).2.currentScopes = st.currentScopes) ∧
    ((startActiveSpan o name parent st).2.events = st.events) := by
  unfold startActiveSpan
  cases o.failO st.calls <;> simp

theorem tracerInject_frame (o : Oracle) (arg : InjectArg) (c : List (String × String))
    (st : St) :
    ((tracerInject o arg c st).2.currentScopes = st.currentScopes) ∧
    ((tracerInject o arg c st).2.nextId = st.nextId) ∧
    ((tracerInject o arg c st).2.store = st.store) ∧
    ((tracerInject o arg c st).2.events = st.events ++ [.injectCall arg c]) := by
  unfold tracerInject
  cases o.failO st.calls <;> simp

theorem tracerInject_noFail (o : Oracle) (arg : InjectArg) (c : List (String × String))
    (st : St) (hf : o.failO st.calls = none) :
    tracerInject o arg c st =
      (.ok (), { st with
                 calls := st.calls + 1,
                 events := st.events ++ [.injectCall arg c] }) := by
  simp [tracerInject, hf]

theorem spanSetTag_frame (o : Oracle) (sc : Nat) (k : String) (v : TagValue) (st : St) :
    ((spanSetTag o sc k v st).2.currentScopes = st.currentScopes) ∧
    ((spanSetTag o sc k v st).2.nextId = st.nextId) ∧
    ((spanSetTag o sc k v st).2.events = st.events) ∧
    (∀ j, j ≠ sc → (spanSetTag o sc k v st).2.store j = st.store j) := by
  unfold spanSetTag
  cases o.failO st.calls with
  | some e => simp
  | none =>
      cases hs : st.store sc <;>
        simp_all [fupdate_ne]

theorem spanSetTag_noFail (o : Oracle) (sc : Nat) (k : String) (v : TagValue) (st : St)
    (hf : o.failO st.calls = none) (sr : SpanRec) (hs : st.store sc = some sr) :
    spanSetTag o sc k v st =
      (.ok (), { st with
                 calls := st.calls + 1,
                 store := fupdate st.store sc (some { sr with tags := dinsert sr.tags k v }) }) := by
  simp [spanSetTag, hf, hs]

theorem spanLogKv_frame (o : Oracle) (sc : Nat) (entry : List (String × LogValue)) (st : St) :
    ((spanLogKv o sc entry st).2.currentScopes = st.currentScopes) ∧
    ((spanLogKv o sc entry st).2.nextId = st.nextId) ∧
    ((spanLogKv o sc entry st).2.events = st.events) ∧
    (∀ j, j ≠ sc → (spanLogKv o sc entry st).2.store j = st.store j) := by
  unfold spanLogKv
  cases o.failO st.calls with
  | some e => simp
  | none =>
      cases hs : st.store sc <;>
        simp_all [fupdate_ne]

theorem spanLogKv_noFail (o : Oracle) (sc : Nat) (entry : List (String × LogValue)) (st : St)
    (hf : o.failO st.calls = none) (sr : SpanRec) (hs : st.store sc = some sr) :
    spanLogKv o sc entry st =
      (.ok (), { st with
                 calls := st.calls + 1,
                 store := fupdate st.store sc (some { sr with logs := sr.logs ++ [entry] }) }) := by
  simp [spanLogKv, hf, hs]

theorem scopeClose_frame (o : Oracle) (sc : Nat) (st : St) :
    ((scopeClose o sc st).2.currentScopes = st.currentScopes) ∧
    ((scopeClose o sc st).2.nextId = st.nextId) ∧
    ((scopeClose o sc st).2.events = st.events) ∧
    (∀ j, j ≠ sc → (scopeClose o sc st).2.store j = st.store j) := by
  unfold scopeClose
  cases o.failO st.calls with
  | some e => simp
  | none =>
      cases hs : st.store sc <;>
        simp_all [fupdate_ne]

theorem scopeClose_noFail (o : Oracle) (sc : Nat) (st : St)
    (hf : o.failO st.calls = none) (sr : SpanRec) (hs : st.store sc = some sr) :
    scopeClose o sc st =
      (.ok (), { st with
                 calls := st.calls + 1,
                 store := fupdate st.store sc (some { sr with scopeClosed := true }) }) := by
  simp [scopeClose, hf, hs]

theorem callStartSpanCb_spec (o : Oracle) (dt : DjangoTracing) (st : St) :
    ((callStartSpanCb o dt st).1 = .ok ()) ∧
    ((callStartSpanCb o dt st).2.currentScopes = st.currentScopes) ∧
    ((callStartSpanCb o dt st).2.nextId = st.nextId) ∧
    ((callStartSpanCb o dt st).2.store = st.store) ∧
    ((callStartSpanCb o dt st).2.events = st.events) := by
  unfold callStartSpanCb
  cases dt.startSpanCb with
  | none => simp
  | some v => cases o.failO st.calls <;> simp

/-! ### The attribute-tagging loop -/

theorem setAttrTags_frame (o : Oracle) (sc : Nat) (req : Request) :
    ∀ (attributes : List String) (st : St),
      ((setAttrTags o sc req attributes st).2.currentScopes = st.currentScopes) ∧
      ((setAttrTags o sc req attributes st).2.nextId = st.nextId) ∧
      ((setAttrTags o sc req attributes st).2.events = st.events) ∧
      (∀ j, j ≠ sc → (setAttrTags o sc req attributes st).2.store j = st.store j) := by
  intro attributes
  induction attributes with
  | nil => intro st; simp [setAttrTags]
  | cons a rest ih =>
      intro st
      simp only [setAttrTags]
      cases hd : dlookup req.attrs a with
      | none => exact ih st
      | some payload =>
          dsimp only
          by_cases hp : payload = ""
          · rw [if_pos hp]; exact ih st
          · rw [if_neg hp]
            have hfr := spanSetTag_frame o sc a (.str payload) st
            cases hset : spanSetTag o sc a (.str payload) st with
            | mk res st' =>
                rw [hset] at hfr
                cases res with
                | error e => simpa using hfr
                | ok u =>
                    have hih := ih st'
                    simp only at hfr
                    refine ⟨?_, ?_, ?_, ?_⟩
                    · rw [hih.1, hfr.1]
                    · rw [hih.2.1, hfr.2.1]
                    · rw [hih.2.2.1, hfr.2.2.1]
                    · intro j hj
                      rw [hih.2.2.2 j hj, hfr.2.2.2 j hj]

theorem setAttrTags_noFail (o : Oracle) (sc : Nat) (req : Request)
    (hf : ∀ n, o.failO n = none) :
    ∀ (attributes : List String) (st : St) (sr : SpanRec), st.store sc = some sr →
      ∃ st' tgs, setAttrTags o sc req attributes st = (.ok (), st') ∧
        st'.store sc = some { sr with tags := tgs } := by
  intro attributes
  induction attributes with
  | nil =>
      intro st sr hs
      exact ⟨st, sr.tags, rfl, hs⟩
  | cons a rest ih =>
      intro st sr hs
      simp only [setAttrTags]
      cases hd : dlookup req.attrs a with
      | none => exact ih st sr hs
      | some payload =>
          dsimp only
          by_cases hp : payload = ""
          · rw [if_pos hp]; exact ih st sr hs
          · rw [if_neg hp, spanSetTag_noFail o sc a (.str payload) st (hf st.calls) sr hs]
            exact ih _ { sr with tags := dinsert sr.tags a (.str payload) }
              (by simp [fupdate_self])

/-! ### Shape of `_apply_tracing` under an arbitrary oracle -/

theorem startSpanSection_shape (o : Oracle) (name : String)
    (headers : List (String × String)) (st : St) :
    ((startSpanSection o name headers st).2.currentScopes = st.currentScopes) ∧
    (∃ tl, (startSpanSection o name headers st).2.events =
      st.events ++ Event.extractCall headers :: tl) := by
  unfold startSpanSection
  rw [tracerExtract_spec]
  cases hx : o.extractO headers with
  | ok ctx =>
      dsimp only
      rcases hS : startActiveSpan o name (some ctx)
          { st with events := st.events ++ [.extractCall headers] } with ⟨res, st2⟩
      have hfr := startActiveSpan_frame o name (some ctx)
          { st with events := st.events ++ [.extractCall headers] }
      rw [hS] at hfr
      simp only at hfr
      cases res with
      | error e =>
          dsimp only
          by_cases hc : failIsCatchable e = true
          · rw [if_pos hc]
            rcases hS2 : startActiveSpan o name none st2 with ⟨res2, st3⟩
            have hfr2 := startActiveSpan_frame o name none st2
            rw [hS2] at hfr2
            simp only at hfr2
            cases res2 with
            | error e2 =>
                refine ⟨?_, [], ?_⟩
                · show st3.currentScopes = _
                  simp only [hfr2.1, hfr.1]
                · show st3.events = _
                  simp [hfr2.2, hfr.2]
            | ok sc =>
                dsimp only
                rcases hI : tracerInject o (.scopeArg sc) headers st3 with ⟨res3, st4⟩
                have hfrI := tracerInject_frame o (.scopeArg sc) headers st3
                rw [hI] at hfrI
                simp only at hfrI
                cases res3 with
                | error e3 =>
                    refine ⟨?_, [.injectCall (.scopeArg sc) headers], ?_⟩
                    · show st4.currentScopes = _
                      simp only [hfrI.1, hfr2.1, hfr.1]
                    · show st4.events = _
                      simp [hfrI.2.2.2, hfr2.2, hfr.2]
                | ok u =>
                    refine ⟨?_, [.injectCall (.scopeArg sc) headers], ?_⟩
                    · show st4.currentScopes = _
                      simp only [hfrI.1, hfr2.1, hfr.1]
                    · show st4.events = _
                      simp [hfrI.2.2.2, hfr2.2, hfr.2]
          · rw [if_neg hc]
            refine ⟨?_, [], ?_⟩
            · show st2.currentScopes = _
              simp only [hfr.1]
            · show st2.events = _
              simp [hfr.2]
      | ok sc =>
          refine ⟨?_, [], ?_⟩
          · show st2.currentScopes = _
            simp only [hfr.1]
          · show st2.events = _
            simp [hfr.2]
  | error e =>
      dsimp only
      by_cases hc : failIsCatchable e = true
      · rw [if_pos hc]
        rcases hS2 : startActiveSpan o name none
            { st with events := st.events ++ [.extractCall headers] } with ⟨res2, st3⟩
        have hfr2 := startActiveSpan_frame o name none
            { st with events := st.events ++ [.extractCall headers] }
        rw [hS2] at hfr2
        simp only at hfr2
        cases res2 with
        | error e2 =>
            refine ⟨?_, [], ?_⟩
            · show st3.currentScopes = _
              simp only [hfr2.1]
            · show st3.events = _
              simp [hfr2.2]
        | ok sc =>
            dsimp only
            rcases hI : tracerInject o (.scopeArg sc) headers st3 with ⟨res3, st4⟩
            have hfrI := tracerInject_frame o (.scopeArg sc) headers st3
            rw [hI] at hfrI
            simp only at hfrI
            cases res3 with
            | error e3 =>
                refine ⟨?_, [.injectCall (.scopeArg sc) headers], ?_⟩
                · show st4.currentScopes = _
                  simp only [hfrI.1, hfr2.1]
                · show st4.events = _
                  simp [hfrI.2.2.2, hfr2.2]
            | ok u =>
                refine ⟨?_, [.injectCall (.scopeArg sc) headers], ?_⟩
                · show st4.currentScopes = _
                  simp only [hfrI.1, hfr2.1]
                · show st4.events = _
                  simp [hfrI.2.2.2, hfr2.2]
      · rw [if_neg hc]
        exact ⟨rfl, [], by simp⟩

theorem applyBody_shape (o : Oracle) (dt : DjangoTracing) (req : Request) (name : String)
    (attrs : List String) (st : St) :
    (((applyTracingBody o dt req name attrs st).2.currentScopes = st.currentScopes) ∨
      ∃ i, (applyTracingBody o dt req name attrs st).2.currentScopes =
        fupdate st.currentScopes req.key (some ((st.currentScopes req.key).getD [] ++ [i]))) ∧
    (∃ tl, (applyTracingBody o dt req name attrs st).2.events =
      st.events ++ Event.extractCall (buildHeaders req.meta) :: tl) := by
  unfold applyTracingBody
  dsimp only
  rcases hS : startSpanSection o name (buildHeaders req.meta) st with ⟨res, st1⟩
  have hSh := startSpanSection_shape o name (buildHeaders req.meta) st
  rw [hS] at hSh
  simp only at hSh
  obtain ⟨hScopes1, tl1, hEv1⟩ := hSh
  cases res with
  | error e => exact ⟨Or.inl hScopes1, tl1, hEv1⟩
  | ok sc =>
      dsimp only
      have hPush : (pushScope st1 req.key sc).currentScopes =
          fupdate st.currentScopes req.key
            (some ((st.currentScopes req.key).getD [] ++ [sc])) := by
        simp [pushScope, hScopes1]
      have hPushEv : (pushScope st1 req.key sc).events =
          st.events ++ Event.extractCall (buildHeaders req.meta) :: tl1 := hEv1
      rcases hT1 : spanSetTag o sc "component" (.str "django") (pushScope st1 req.key sc)
        with ⟨r1, stA⟩
      have hA := spanSetTag_frame o sc "component" (.str "django") (pushScope st1 req.key sc)
      rw [hT1] at hA
      simp only at hA
      cases r1 with
      | error e =>
          exact ⟨Or.inr ⟨sc, by rw [show (Except.error (α := Unit) e, stA).2.currentScopes
            = stA.currentScopes from rfl, hA.1, hPush]⟩, tl1, by rw [show
            (Except.error (α := Unit) e, stA).2.events = stA.events from rfl,
            hA.2.2.1, hPushEv]⟩
      | ok u1 =>
      dsimp only
      rcases hT2 : spanSetTag o sc "span.kind" (.str "server") stA with ⟨r2, stB⟩
      have hB := spanSetTag_frame o sc "span.kind" (.str "server") stA
      rw [hT2] at hB
      simp only at hB
      cases r2 with
      | error e =>
          refine ⟨Or.inr ⟨sc, ?_⟩, tl1, ?_⟩
          · show stB.currentScopes = _
            rw [hB.1, hA.1, hPush]
          · show stB.events = _
            rw [hB.2.2.1, hA.2.2.1, hPushEv]
      | ok u2 =>
      dsimp only
      rcases hT3 : spanSetTag o sc "http.method" (.str req.method) stB with ⟨r3, stC⟩
      have hC := spanSetTag_frame o sc "http.method" (.str req.method) stB
      rw [hT3] at hC
      simp only at hC
      cases r3 with
      | error e =>
          refine ⟨Or.inr ⟨sc, ?_⟩, tl1, ?_⟩
          · show stC.currentScopes = _
            rw [hC.1, hB.1, hA.1, hPush]
          · show stC.events = _
            rw [hC.2.2.1, hB.2.2.1, hA.2.2.1, hPushEv]
      | ok u3 =>
      dsimp only
      rcases hT4 : spanSetTag o sc "http.url" (.str req.fullPath) stC with ⟨r4, stD⟩
      have hD := spanSetTag_frame o sc "http.url" (.str req.fullPath) stC
      rw [hT4] at hD
      simp only at hD
      cases r4 with
      | error e =>
          refine ⟨Or.inr ⟨sc, ?_⟩, tl1, ?_⟩
          · show stD.currentScopes = _
            rw [hD.1, hC.1, hB.1, hA.1, hPush]
          · show stD.events = _
            rw [hD.2.2.1, hC.2.2.1, hB.2.2.1, hA.2.2.1, hPushEv]
      | ok u4 =>
      dsimp only
      rcases hT5 : setAttrTags o sc req attrs stD with ⟨r5, stE⟩
      have hE := setAttrTags_frame o sc req attrs stD
      rw [hT5] at hE
      simp only at hE
      cases r5 with
      | error e =>
          refine ⟨Or.inr ⟨sc, ?_⟩, tl1, ?_⟩
          · show stE.currentScopes = _
            rw [hE.1, hD.1, hC.1, hB.1, hA.1, hPush]
          · show stE.events = _
            rw [hE.2.2.1, hD.2.2.1, hC.2.2.1, hB.2.2.1, hA.2.2.1, hPushEv]
      | ok u5 =>
      dsimp only
      rcases hT6 : callStartSpanCb o dt stE with ⟨r6, stF⟩
      have hF := callStartSpanCb_spec o dt stE
      rw [hT6] at hF
      simp only at hF
      cases r6 with
      | error e =>
          refine ⟨Or.inr ⟨sc, ?_⟩, tl1, ?_⟩
          · show stF.currentScopes = _
            rw [hF.2.1, hE.1, hD.1, hC.1, hB.1, hA.1, hPush]
          · show stF.events = _
            rw [hF.2.2.2.2, hE.2.2.1, hD.2.2.1, hC.2.2.1, hB.2.2.1, hA.2.2.1, hPushEv]
      | ok u6 =>
          refine ⟨Or.inr ⟨sc, ?_⟩, tl1, ?_⟩
          · show stF.currentScopes = _
            rw [hF.2.1, hE.1, hD.1, hC.1, hB.1, hA.1, hPush]
          · show stF.events = _
            rw [hF.2.2.2.2, hE.2.2.1, hD.2.2.1, hC.2.2.1, hB.2.2.1, hA.2.2.1, hPushEv]

theorem apply_shape (o : Oracle) (dt : DjangoTracing) (req : Request) (name : String)
    (attrs : List String) (st : St) :
    (((_apply_tracing o dt req name attrs st).2.currentScopes = st.currentScopes) ∨
      ∃ i, (_apply_tracing o dt req name attrs st).2.currentScopes =
        fupdate st.currentScopes req.key (some ((st.currentScopes req.key).getD [] ++ [i]))) ∧
    (∃ tl, (_apply_tracing o dt req name attrs st).2.events =
      st.events ++ Event.extractCall (buildHeaders req.meta) :: tl) := by
  unfold _apply_tracing
  rcases hB : applyTracingBody o dt req name attrs st with ⟨res, st'⟩
  have hSh := applyBody_shape o dt req name attrs st
  rw [hB] at hSh
  obtain ⟨hsc, tl, hev⟩ := hSh
  cases res with
  | ok sc => exact ⟨hsc, tl, hev⟩
  | error e =>
      refine ⟨hsc, tl ++ [.logErrorCall "Exception during apply tracing"], ?_⟩
      show (stLogError st' _).events = _
      rw [stLogError, hev]
      simp

/-- Lemma: `_apply_tracing` never lets an exception escape: the outer
`try`/`except Exception` catches every body failure. -/
theorem apply_tracing_isOk (o : Oracle) (dt : DjangoTracing) (req : Request) (name : String)
    (attrs : List String) (st : St) :
    ∃ v st', _apply_tracing o dt req name attrs st = (.ok v, st') := by
  unfold _apply_tracing
  rcases hB : applyTracingBody o dt req name attrs st with ⟨res, st'⟩
  cases res with
  | ok sc => exact ⟨some sc, st', rfl⟩
  | error e => exact ⟨none, stLogError st' "Exception during apply tracing", rfl⟩

/-- Lemma: `_finish_tracing` never lets an exception escape. -/
theorem finish_tracing_isOk (o : Oracle) (req : Request) (response : Option Response)
    (error : Option PyErr) (st : St) :
    ∃ st', _finish_tracing o req response error st = (.ok (), st') := by
  unfold _finish_tracing
  rcases hB : finishTracingBody o req response error st with ⟨res, st'⟩
  cases res with
  | ok u => exact ⟨st', rfl⟩
  | error e => exact ⟨stLogError st' "Exception during finish tracing", rfl⟩

/-! ### Success-path characterization of `_apply_tracing` -/

theorem spanSetTag_noFail_ex (o : Oracle) (sc : Nat) (k : String) (v : TagValue) (st : St)
    (hf : o.failO st.calls = none) (sr : SpanRec) (hsr : st.store sc = some sr) :
    ∃ st', spanSetTag o sc k v st = (.ok (), st') ∧
      st'.store sc = some { sr with tags := dinsert sr.tags k v } ∧
      st'.currentScopes = st.currentScopes ∧ st'.nextId = st.nextId ∧
      st'.events = st.events ∧ (∀ j, j ≠ sc → st'.store j = st.store j) := by
  refine ⟨_, spanSetTag_noFail o sc k v st hf sr hsr, ?_, rfl, rfl, rfl, ?_⟩
  · simp [fupdate]
  · intro j hj
    simp [fupdate, hj]

theorem spanLogKv_noFail_ex (o : Oracle) (sc : Nat) (entry : List (String × LogValue)) (st : St)
    (hf : o.failO st.calls = none) (sr : SpanRec) (hsr : st.store sc = some sr) :
    ∃ st', spanLogKv o sc entry st = (.ok (), st') ∧
      st'.store sc = some { sr with logs := sr.logs ++ [entry] } ∧
      st'.currentScopes = st.currentScopes ∧ st'.nextId = st.nextId ∧
      st'.events = st.events ∧ (∀ j, j ≠ sc → st'.store j = st.store j) := by
  refine ⟨_, spanLogKv_noFail o sc entry st hf sr hsr, ?_, rfl, rfl, rfl, ?_⟩
  · simp [fupdate]
  · intro j hj
    simp [fupdate, hj]

theorem scopeClose_noFail_ex (o : Oracle) (sc : Nat) (st : St)
    (hf : o.failO st.calls = none) (sr : SpanRec) (hsr : st.store sc = some sr) :
    ∃ st', scopeClose o sc st = (.ok (), st') ∧
      st'.store sc = some { sr with scopeClosed := true } ∧
      st'.currentScopes = st.currentScopes ∧ st'.nextId = st.nextId ∧
      st'.events = st.events ∧ (∀ j, j ≠ sc → st'.store j = st.store j) := by
  refine ⟨_, scopeClose_noFail o sc st hf sr hsr, ?_, rfl, rfl, rfl, ?_⟩
  · simp [fupdate]
  · intro j hj
    simp [fupdate, hj]

theorem startSpanSection_noFail_ok (o : Oracle) (name : String)
    (headers : List (String × String)) (st : St) (ctx : SpanContext)
    (hf : o.failO st.calls = none) (hx : o.extractO headers = .ok ctx) :
    startSpanSection o name headers st =
      (.ok st.nextId,
        { st with
          calls := st.calls + 1, nextId := st.nextId + 1,
          store := fupdate st.store st.nextId
            (some { operationName := name, parent := some ctx, ctx := st.nextId,
                    tags := [], logs := [], scopeClosed := false }),
          events := st.events ++ [.extractCall headers] }) := by
  unfold startSpanSection
  rw [tracerExtract_spec, hx]
  dsimp only
  rw [startActiveSpan_noFail o name (some ctx)
    { st with events := st.events ++ [.extractCall headers] } hf]

theorem startSpanSection_noFail_fallback (o : Oracle) (name : String)
    (headers : List (String × String)) (st : St) (e : PyErr)
    (hf : o.failO st.calls = none) (hf2 : o.failO (st.calls + 1) = none)
    (hx : o.extractO headers = .error e) (hc : failIsCatchable e = true) :
    startSpanSection o name headers st =
      (.ok st.nextId,
        { st with
          calls := st.calls + 2, nextId := st.nextId + 1,
          store := fupdate st.store st.nextId
            (some { operationName := name, parent := none, ctx := st.nextId,
                    tags := [], logs := [], scopeClosed := false }),
          events := st.events ++ [.extractCall headers]
            ++ [.injectCall (.scopeArg st.nextId) headers] }) := by
  unfold startSpanSection
  rw [tracerExtract_spec, hx]
  dsimp only
  rw [if_pos hc]
  rw [startActiveSpan_noFail o name none
    { st with events := st.events ++ [.extractCall headers] } hf]
  dsimp only
  rw [tracerInject_noFail o (.scopeArg st.nextId) headers _ hf2]

theorem apply_noFail_from_section (o : Oracle) (dt : DjangoTracing) (req : Request)
    (name : String) (attrs : List String) (st : St) (sc : Nat) (stS : St)
    (hf : ∀ n, o.failO n = none)
    (hS : startSpanSection o name (buildHeaders req.meta) st = (.ok sc, stS))
    (sr0 : SpanRec) (hsr : stS.store sc = some sr0) :
    ∃ stf tgs, _apply_tracing o dt req name attrs st = (.ok (some sc), stf) ∧
      stf.currentScopes = fupdate stS.currentScopes req.key
        (some ((stS.currentScopes req.key).getD [] ++ [sc])) ∧
      stf.nextId = stS.nextId ∧
      stf.events = stS.events ∧
      stf.store sc = some { sr0 with tags := tgs } ∧
      (∀ j, j ≠ sc → stf.store j = stS.store j) := by
  unfold _apply_tracing applyTracingBody
  dsimp only
  rw [hS]
  dsimp only
  obtain ⟨stA, hAe, hAsr, hAsc, hAn, hAev, hAfr⟩ :=
    spanSetTag_noFail_ex o sc "component" (.str "django") (pushScope stS req.key sc)
      (hf _) sr0 hsr
  rw [hAe]
  dsimp only
  obtain ⟨stB, hBe, hBsr, hBsc, hBn, hBev, hBfr⟩ :=
    spanSetTag_noFail_ex o sc "span.kind" (.str "server") stA (hf _) _ hAsr
  rw [hBe]
  dsimp only
  obtain ⟨stC, hCe, hCsr, hCsc, hCn, hCev, hCfr⟩ :=
    spanSetTag_noFail_ex o sc "http.method" (.str req.method) stB (hf _) _ hBsr
  rw [hCe]
  dsimp only
  obtain ⟨stD, hDe, hDsr, hDsc, hDn, hDev, hDfr⟩ :=
    spanSetTag_noFail_ex o sc "http.url" (.str req.fullPath) stC (hf _) _ hCsr
  rw [hDe]
  dsimp only
  obtain ⟨stE, tgs, hEe, hEsr⟩ := setAttrTags_noFail o sc req hf attrs stD _ hDsr
  have hEfr := setAttrTags_frame o sc req attrs stD
  rw [hEe] at hEfr
  simp only at hEfr
  rw [hEe]
  dsimp only
  rcases hT6 : callStartSpanCb o dt stE with ⟨r6, stF⟩
  have hF := callStartSpanCb_spec o dt stE
  rw [hT6] at hF
  simp only at hF
  rw [hF.1]
  refine ⟨stF, tgs, rfl, ?_, ?_, ?_, ?_, ?_⟩
  · rw [hF.2.1, hEfr.1, hDsc, hCsc, hBsc, hAsc]
    rfl
  · rw [hF.2.2.1, hEfr.2.1, hDn, hCn, hBn, hAn]
    rfl
  · rw [hF.2.2.2.2, hEfr.2.2.1, hDev, hCev, hBev, hAev]
    rfl
  · rw [hF.2.2.2.1, hEsr]
  · intro j hj
    rw [hF.2.2.2.1, hEfr.2.2.2 j hj, hDfr j hj, hCfr j hj, hBfr j hj, hAfr j hj]
    rfl

theorem apply_noFail_ok (o : Oracle) (dt : DjangoTracing) (req : Request) (name : String)
    (attrs : List String) (st : St) (ctx : SpanContext)
    (hf : ∀ n, o.failO n = none)
    (hx : o.extractO (buildHeaders req.meta) = .ok ctx) :
    ∃ stf tgs, _apply_tracing o dt req name attrs st = (.ok (some st.nextId), stf) ∧
      stf.currentScopes = fupdate st.currentScopes req.key
        (some ((st.currentScopes req.key).getD [] ++ [st.nextId])) ∧
      stf.nextId = st.nextId + 1 ∧
      stf.events = st.events ++ [.extractCall (buildHeaders req.meta)] ∧
      stf.store st.nextId = some { operationName := name, parent := some ctx,
                                   ctx := st.nextId, tags := tgs, logs := [],
                                   scopeClosed := false } ∧
      (∀ j, j ≠ st.nextId → stf.store j = st.store j) := by
  have hS := startSpanSection_noFail_ok o name (buildHeaders req.meta) st ctx (hf _) hx
  obtain ⟨stf, tgs, hEq, hsc, hn, hev, hsr, hfr⟩ :=
    apply_noFail_from_section o dt req name attrs st st.nextId _ hf hS
      { operationName := name, parent := some ctx, ctx := st.nextId,
        tags := [], logs := [], scopeClosed := false } (by simp [fupdate])
  refine ⟨stf, tgs, hEq, hsc, hn, hev, hsr, ?_⟩
  intro j hj
  rw [hfr j hj]
  exact fupdate_ne st.store st.nextId j _ hj

theorem apply_noFail_fallback (o : Oracle) (dt : DjangoTracing) (req : Request) (name : String)
    (attrs : List String) (st : St) (e : PyErr)
    (hf : ∀ n, o.failO n = none)
    (hx : o.extractO (buildHeaders req.meta) = .error e) (hc : failIsCatchable e = true) :
    ∃ stf tgs, _apply_tracing o dt req name attrs st = (.ok (some st.nextId), stf) ∧
      stf.currentScopes = fupdate st.currentScopes req.key
        (some ((st.currentScopes req.key).getD [] ++ [st.nextId])) ∧
      stf.nextId = st.nextId + 1 ∧
      stf.events = st.events ++ [.extractCall (buildHeaders req.meta)]
        ++ [.injectCall (.scopeArg st.nextId) (buildHeaders req.meta)] ∧
      stf.store st.nextId = some { operationName := name, parent := none,
                                   ctx := st.nextId, tags := tgs, logs := [],
                                   scopeClosed := false } ∧
      (∀ j, j ≠ st.nextId → stf.store j = st.store j) := by
  have hS := startSpanSection_noFail_fallback o name (buildHeaders req.meta) st e
    (hf _) (hf _) hx hc
  obtain ⟨stf, tgs, hEq, hsc, hn, hev, hsr, hfr⟩ :=
    apply_noFail_from_section o dt req name attrs st st.nextId _ hf hS
      { operationName := name, parent := none, ctx := st.nextId,
        tags := [], logs := [], scopeClosed := false } (by simp [fupdate])
  refine ⟨stf, tgs, hEq, hsc, hn, hev, hsr, ?_⟩
  intro j hj
  rw [hfr j hj]
  exact fupdate_ne st.store st.nextId j _ hj

/-! ### Characterization of `_finish_tracing` -/

/-- The span record of the popped scope after `_finish_tracing` has applied
its error tag / error log (when `error` is given), status-code tag (when
`response` is given), and `scope.close()`. -/
def finishedRec (sr : SpanRec) (resp : Option Response) (err : Option PyErr) : SpanRec :=
  let sr1 :=
    match err with
    | some e =>
        { sr with
          tags := dinsert sr.tags "error" (.boolV true),
          logs := sr.logs ++ [[("event", LogValue.str "error"), ("error.object", LogValue.errObj e)]] }
    | none => sr
  let sr2 :=
    match resp with
    | some r => { sr1 with tags := dinsert sr1.tags "http.status_code" (.int r.statusCode) }
    | none => sr1
  { sr2 with scopeClosed := true }

theorem finishBody_pop (o : Oracle) (req : Request) (resp : Option Response)
    (err : Option PyErr) (st : St) (s : List Nat)
    (hsome : st.currentScopes req.key = some s) (hne : s ≠ []) :
    ∃ res stb, finishTracingBody o req resp err st = (res, stb) ∧
      stb.currentScopes req.key = (if s.dropLast.isEmpty then none else some s.dropLast) ∧
      (∀ k, k ≠ req.key → stb.currentScopes k = st.currentScopes k) ∧
      stb.nextId = st.nextId := by
  unfold finishTracingBody
  rw [hsome]
  dsimp only
  rw [List.getLast?_eq_getLast s hne]
  dsimp only
  set sc := s.getLast hne with hscdef
  set st2 : St :=
    (if (s.dropLast.isEmpty : Bool) then
      { st with currentScopes :=
          fupdate (fupdate st.currentScopes req.key (some s.dropLast)) req.key none }
    else { st with currentScopes := fupdate st.currentScopes req.key (some s.dropLast) })
    with hst2def
  have hAt : st2.currentScopes req.key =
      (if s.dropLast.isEmpty then none else some s.dropLast) := by
    rw [hst2def]
    by_cases hrem : s.dropLast.isEmpty
    · simp [hrem, fupdate]
    · simp [hrem, fupdate]
  have hOther : ∀ k, k ≠ req.key → st2.currentScopes k = st.currentScopes k := by
    intro k hk
    rw [hst2def]
    by_cases hrem : s.dropLast.isEmpty
    · simp [hrem, fupdate, hk]
    · simp [hrem, fupdate, hk]
  have hN : st2.nextId = st.nextId := by
    rw [hst2def]
    by_cases hrem : s.dropLast.isEmpty
    · simp [hrem]
    · simp [hrem]
  clear_value st2
  cases err with
  | none =>
      dsimp only
      cases resp with
      | none =>
          dsimp only
          rcases hCl : scopeClose o sc st2 with ⟨rC, stC⟩
          have hCf := scopeClose_frame o sc st2
          rw [hCl] at hCf
          simp only at hCf
          exact ⟨rC, stC, rfl, by rw [hCf.1, hAt], fun k hk => by rw [hCf.1, hOther k hk],
            by rw [hCf.2.1, hN]⟩
      | some r =>
          dsimp only
          rcases hR : spanSetTag o sc "http.status_code" (.int r.statusCode) st2 with ⟨rR, stR⟩
          have hRf := spanSetTag_frame o sc "http.status_code" (.int r.statusCode) st2
          rw [hR] at hRf
          simp only at hRf
          cases rR with
          | error eR =>
              exact ⟨.error eR, stR, rfl, by rw [hRf.1, hAt],
                fun k hk => by rw [hRf.1, hOther k hk], by rw [hRf.2.1, hN]⟩
          | ok uR =>
              dsimp only
              rcases hCl : scopeClose o sc stR with ⟨rC, stC⟩
              have hCf := scopeClose_frame o sc stR
              rw [hCl] at hCf
              simp only at hCf
              exact ⟨rC, stC, rfl, by rw [hCf.1, hRf.1, hAt],
                fun k hk => by rw [hCf.1, hRf.1, hOther k hk],
                by rw [hCf.2.1, hRf.2.1, hN]⟩
  | some e =>
      dsimp only
      rcases hE1 : spanSetTag o sc "error" (.boolV true) st2 with ⟨rE, stE1⟩
      have hE1f := spanSetTag_frame o sc "error" (.boolV true) st2
      rw [hE1] at hE1f
      simp only at hE1f
      cases rE with
      | error eE =>
          exact ⟨.error eE, stE1, rfl, by rw [hE1f.1, hAt],
            fun k hk => by rw [hE1f.1, hOther k hk], by rw [hE1f.2.1, hN]⟩
      | ok uE =>
          dsimp only
          rcases hE2 : spanLogKv o sc
            [("event", .str "error"), ("error.object", .errObj e)] stE1 with ⟨rL, stE2⟩
          have hE2f := spanLogKv_frame o sc
            [("event", .str "error"), ("error.object", .errObj e)] stE1
          rw [hE2] at hE2f
          simp only at hE2f
          cases rL with
          | error eL =>
              exact ⟨.error eL, stE2, rfl, by rw [hE2f.1, hE1f.1, hAt],
                fun k hk => by rw [hE2f.1, hE1f.1, hOther k hk],
                by rw [hE2f.2.1, hE1f.2.1, hN]⟩
          | ok uL =>
              dsimp only
              cases resp with
              | none =>
                  dsimp only
                  rcases hCl : scopeClose o sc stE2 with ⟨rC, stC⟩
                  have hCf := scopeClose_frame o sc stE2
                  rw [hCl] at hCf
                  simp only at hCf
                  exact ⟨rC, stC, rfl, by rw [hCf.1, hE2f.1, hE1f.1, hAt],
                    fun k hk => by rw [hCf.1, hE2f.1, hE1f.1, hOther k hk],
                    by rw [hCf.2.1, hE2f.2.1, hE1f.2.1, hN]⟩
              | some r =>
                  dsimp only
                  rcases hR : spanSetTag o sc "http.status_code" (.int r.statusCode) stE2
                    with ⟨rR, stR⟩
                  have hRf := spanSetTag_frame o sc "http.status_code" (.int r.statusCode) stE2
                  rw [hR] at hRf
                  simp only at hRf
                  cases rR with
                  | error eR =>
                      exact ⟨.error eR, stR, rfl, by rw [hRf.1, hE2f.1, hE1f.1, hAt],
                        fun k hk => by rw [hRf.1, hE2f.1, hE1f.1, hOther k hk],
                        by rw [hRf.2.1, hE2f.2.1, hE1f.2.1, hN]⟩
                  | ok uR =>
                      dsimp only
                      rcases hCl : scopeClose o sc stR with ⟨rC, stC⟩
                      have hCf := scopeClose_frame o sc stR
                      rw [hCl] at hCf
                      simp only at hCf
                      exact ⟨rC, stC, rfl, by rw [hCf.1, hRf.1, hE2f.1, hE1f.1, hAt],
                        fun k hk => by rw [hCf.1, hRf.1, hE2f.1, hE1f.1, hOther k hk],
                        by rw [hCf.2.1, hRf.2.1, hE2f.2.1, hE1f.2.1, hN]⟩

theorem finish_pop (o : Oracle) (req : Request) (resp : Option Response) (err : Option PyErr)
    (st : St) (s : List Nat) (hsome : st.currentScopes req.key = some s) (hne : s ≠ []) :
    ∃ stf, _finish_tracing o req resp err st = (.ok (), stf) ∧
      stf.currentScopes req.key = (if s.dropLast.isEmpty then none else some s.dropLast) ∧
      (∀ k, k ≠ req.key → stf.currentScopes k = st.currentScopes k) ∧
      stf.nextId = st.nextId := by
  obtain ⟨res, stb, hB, hAt, hOther, hN⟩ := finishBody_pop o req resp err st s hsome hne
  unfold _finish_tracing
  rw [hB]
  cases res with
  | ok u => exact ⟨stb, rfl, hAt, hOther, hN⟩
  | error e => exact ⟨stLogError stb "Exception during finish tracing", rfl, hAt, hOther, hN⟩

/-- Lemma: `_finish_tracing` on a request with no stack entry is a no-op. -/
theorem finish_absent (o : Oracle) (req : Request) (resp : Option Response)
    (err : Option PyErr) (st : St) (habs : st.currentScopes req.key = none) :
    _finish_tracing o req resp err st = (.ok (), st) := by
  unfold _finish_tracing finishTracingBody
  rw [habs]

theorem finishBody_noFail_close (o : Oracle) (req : Request) (resp : Option Response)
    (err : Option PyErr) (st : St) (s : List Nat) (sc : Nat) (sr : SpanRec)
    (hf : ∀ n, o.failO n = none)
    (hsome : st.currentScopes req.key = some s)
    (hlast : s.getLast? = some sc)
    (hsr : st.store sc = some sr) :
    ∃ stb, finishTracingBody o req resp err st = (.ok (), stb) ∧
      stb.store sc = some (finishedRec sr resp err) ∧
      (∀ j, j ≠ sc → stb.store j = st.store j) ∧
      stb.currentScopes req.key = (if s.dropLast.isEmpty then none else some s.dropLast) ∧
      (∀ k, k ≠ req.key → stb.currentScopes k = st.currentScopes k) ∧
      stb.nextId = st.nextId ∧
      stb.events = st.events := by
  unfold finishTracingBody
  rw [hsome]
  dsimp only
  rw [hlast]
  dsimp only
  set st2 : St :=
    (if (s.dropLast.isEmpty : Bool) then
      { st with currentScopes :=
          fupdate (fupdate st.currentScopes req.key (some s.dropLast)) req.key none }
    else { st with currentScopes := fupdate st.currentScopes req.key (some s.dropLast) })
    with hst2def
  have hAt : st2.currentScopes req.key =
      (if s.dropLast.isEmpty then none else some s.dropLast) := by
    rw [hst2def]
    by_cases hrem : s.dropLast.isEmpty
    · simp [hrem, fupdate]
    · simp [hrem, fupdate]
  have hOther : ∀ k, k ≠ req.key → st2.currentScopes k = st.currentScopes k := by
    intro k hk
    rw [hst2def]
    by_cases hrem : s.dropLast.isEmpty
    · simp [hrem, fupdate, hk]
    · simp [hrem, fupdate, hk]
  have hN : st2.nextId = st.nextId := by
    rw [hst2def]
    by_cases hrem : s.dropLast.isEmpty
    · simp [hrem]
    · simp [hrem]
  have hSt : st2.store = st.store := by
    rw [hst2def]
    by_cases hrem : s.dropLast.isEmpty
    · simp [hrem]
    · simp [hrem]
  have hEv : st2.events = st.events := by
    rw [hst2def]
    by_cases hrem : s.dropLast.isEmpty
    · simp [hrem]
    · simp [hrem]
  have hsr2 : st2.store sc = some sr := by rw [hSt, hsr]
  clear_value st2
  cases err with
  | none =>
      dsimp only
      cases resp with
      | none =>
          dsimp only
          obtain ⟨stC, hCe, hCsr, hCsc, hCn, hCev, hCfr⟩ :=
            scopeClose_noFail_ex o sc st2 (hf _) sr hsr2
          rw [hCe]
          exact ⟨stC, rfl, hCsr, fun j hj => by rw [hCfr j hj, hSt],
            by rw [hCsc, hAt], fun k hk => by rw [hCsc, hOther k hk],
            by rw [hCn, hN], by rw [hCev, hEv]⟩
      | some r =>
          dsimp only
          obtain ⟨stR, hRe, hRsr, hRsc, hRn, hRev, hRfr⟩ :=
            spanSetTag_noFail_ex o sc "http.status_code" (.int r.statusCode) st2 (hf _) sr hsr2
          rw [hRe]
          dsimp only
          obtain ⟨stC, hCe, hCsr, hCsc, hCn, hCev, hCfr⟩ :=
            scopeClose_noFail_ex o sc stR (hf _) _ hRsr
          rw [hCe]
          exact ⟨stC, rfl, hCsr, fun j hj => by rw [hCfr j hj, hRfr j hj, hSt],
            by rw [hCsc, hRsc, hAt], fun k hk => by rw [hCsc, hRsc, hOther k hk],
            by rw [hCn, hRn, hN], by rw [hCev, hRev, hEv]⟩
  | some e =>
      dsimp only
      obtain ⟨stE1, hE1e, hE1sr, hE1sc, hE1n, hE1ev, hE1fr⟩ :=
        spanSetTag_noFail_ex o sc "error" (.boolV true) st2 (hf _) sr hsr2
      rw [hE1e]
      dsimp only
      obtain ⟨stE2, hE2e, hE2sr, hE2sc, hE2n, hE2ev, hE2fr⟩ :=
        spanLogKv_noFail_ex o sc
          [("event", .str "error"), ("error.object", .errObj e)] stE1 (hf _) _ hE1sr
      rw [hE2e]
      dsimp only
      cases resp with
      | none =>
          dsimp only
          obtain ⟨stC, hCe, hCsr, hCsc, hCn, hCev, hCfr⟩ :=
            scopeClose_noFail_ex o sc stE2 (hf _) _ hE2sr
          rw [hCe]
          exact ⟨stC, rfl, hCsr,
            fun j hj => by rw [hCfr j hj, hE2fr j hj, hE1fr j hj, hSt],
            by rw [hCsc, hE2sc, hE1sc, hAt],
            fun k hk => by rw [hCsc, hE2sc, hE1sc, hOther k hk],
            by rw [hCn, hE2n, hE1n, hN], by rw [hCev, hE2ev, hE1ev, hEv]⟩
      | some r =>
          dsimp only
          obtain ⟨stR, hRe, hRsr, hRsc, hRn, hRev, hRfr⟩ :=
            spanSetTag_noFail_ex o sc "http.status_code" (.int r.statusCode) stE2 (hf _) _ hE2sr
          rw [hRe]
          dsimp only
          obtain ⟨stC, hCe, hCsr, hCsc, hCn, hCev, hCfr⟩ :=
            scopeClose_noFail_ex o sc stR (hf _) _ hRsr
          rw [hCe]
          exact ⟨stC, rfl, hCsr,
            fun j hj => by rw [hCfr j hj, hRfr j hj, hE2fr j hj, hE1fr j hj, hSt],
            by rw [hCsc, hRsc, hE2sc, hE1sc, hAt],
            fun k hk => by rw [hCsc, hRsc, hE2sc, hE1sc, hOther k hk],
            by rw [hCn, hRn, hE2n, hE1n, hN], by rw [hCev, hRev, hE2ev, hE1ev, hEv]⟩

theorem finish_noFail_close (o : Oracle) (req : Request) (resp : Option Response)
    (err : Option PyErr) (st : St) (s : List Nat) (sc : Nat) (sr : SpanRec)
    (hf : ∀ n, o.failO n = none)
    (hsome : st.currentScopes req.key = some s)
    (hlast : s.getLast? = some sc)
    (hsr : st.store sc = some sr) :
    ∃ stf, _finish_tracing o req resp err st = (.ok (), stf) ∧
      stf.store sc = some (finishedRec sr resp err) ∧
      (∀ j, j ≠ sc → stf.store j = st.store j) ∧
      stf.currentScopes req.key = (if s.dropLast.isEmpty then none else some s.dropLast) ∧
      (∀ k, k ≠ req.key → stf.currentScopes k = st.currentScopes k) ∧
      stf.nextId = st.nextId := by
  obtain ⟨stb, hB, h1, h2, h3, h4, h5, h6⟩ :=
    finishBody_noFail_close o req resp err st s sc sr hf hsome hlast hsr
  unfold _finish_tracing
  rw [hB]
  exact ⟨stb, rfl, h1, h2, h3, h4, h5⟩

/-! ### Concrete instances used by the witnesses -/

/-- Oracle on which every primitive succeeds; extraction yields context 42. -/
def oracleOk : Oracle := { extractO := fun _ => .ok 42, failO := fun _ => none }

/-- Oracle on which extraction raises `InvalidCarrierException` and every
other primitive succeeds. -/
def oracleBadCarrier : Oracle :=
  { extractO := fun _ => .error .invalidCarrier, failO := fun _ => none }

/-- Oracle on which every primitive call raises an unexpected exception. -/
def oracleBoom : Oracle :=
  { extractO := fun _ => .error (.other "boom"), failO := fun _ => some (.other "boom") }

/-- The empty initial world state. -/
def st0 : St :=
  { currentScopes := fun _ => none, store := fun _ => none,
    nextId := 0, calls := 0, events := [] }

/-- A sample request. -/
def reqA : Request :=
  { key := 1, meta := [("HTTP_USER_AGENT", "ua")], method := "GET",
    fullPath := "/foo", attrs := [("user_id", "9")] }

/-- A tracker with a concrete tracer, no callback, trace-all off. -/
def dtPlain : DjangoTracing :=
  { tracerImplementation := some 7, startSpanCb := none, traceAll := false }

/-- A tracker with trace-all on. -/
def dtAll : DjangoTracing :=
  { tracerImplementation := some 7, startSpanCb := none, traceAll := true }

/-- A handler that returns a 200 response and leaves the world unchanged. -/
def handlerOk : Handler := fun st => (.ok ⟨200⟩, st)

/-- A handler that raises. -/
def handlerBoom : Handler := fun st => (.error (.other "view blew up"), st)

/-! ### Claim theorems -/

/-- C2: neither `_apply_tracing` nor `_finish_tracing` ever raises to its
caller — for every oracle (i.e. whatever exceptions the tracer, span or
callback primitives raise) both return normally, the body's exception being
caught and logged via `logging.error`; and `_call_start_span_cb` swallows
any failure of the configured callback. -/
theorem tracing_never_raises (o : Oracle) (dt : DjangoTracing) (req : Request)
    (name : String) (attrs : List String) (resp : Option Response) (err : Option PyErr)
    (st : St) :
    (∃ v st', _apply_tracing o dt req name attrs st = (.ok v, st')) ∧
    (∃ st', _finish_tracing o req resp err st = (.ok (), st')) ∧
    ((callStartSpanCb o dt st).1 = .ok ()) ∧
    ((_apply_tracing o dt req name attrs st).2.events =
      (applyTracingBody o dt req name attrs st).2.events ++
        (match (applyTracingBody o dt req name attrs st).1 with
         | .ok _ => []
         | .error _ => [.logErrorCall "Exception during apply tracing"])) ∧
    ((_finish_tracing o req resp err st).2.events =
      (finishTracingBody o req resp err st).2.events ++
        (match (finishTracingBody o req resp err st).1 with
         | .ok _ => []
         | .error _ => [.logErrorCall "Exception during finish tracing"])) := by
  refine ⟨apply_tracing_isOk o dt req name attrs st, finish_tracing_isOk o req resp err st,
    (callStartSpanCb_spec o dt st).1, ?_, ?_⟩
  · unfold _apply_tracing
    rcases hB : applyTracingBody o dt req name attrs st with ⟨res, st'⟩
    cases res with
    | ok sc => simp
    | error e => simp [stLogError]
  · unfold _finish_tracing
    rcases hB : finishTracingBody o req resp err st with ⟨res, st'⟩
    cases res with
    | ok u => simp
    | error e => simp [stLogError]

/-- C3: the wrapper produced by `DjangoTracing.trace`: when trace-all mode
is active and this is the decorator form (`view = True`), it calls the
handler directly with no instrumentation; otherwise it runs
`_apply_tracing` first, then the handler from the resulting state, and on
normal return calls `_finish_tracing` with the return value and returns
that value unchanged, while on a raised exception it calls
`_finish_tracing` with that error and re-raises the original exception
unchanged. -/
theorem trace_wrapper_contract (o : Oracle) (dt : DjangoTracing) (view : Bool)
    (name : String) (attrs : List String) (h : Handler) (req : Request) (st : St) :
    (dt.traceAll = true → view = true →
      traceWrapper o dt view name attrs h req st = h st) ∧
    ((dt.traceAll && view) = false →
      (∀ r st2, h (_apply_tracing o dt req name attrs st).2 = (.ok r, st2) →
        traceWrapper o dt view name attrs h req st =
          (.ok r, (_finish_tracing o req (some r) none st2).2)) ∧
      (∀ exc st2, h (_apply_tracing o dt req name attrs st).2 = (.error exc, st2) →
        traceWrapper o dt view name attrs h req st =
          (.error exc, (_finish_tracing o req none (some exc) st2).2))) := by
  constructor
  · intro h1 h2
    unfold traceWrapper
    rw [if_pos (by rw [h1, h2]; rfl)]
  · intro hskip
    obtain ⟨v, st1, hA⟩ := apply_tracing_isOk o dt req name attrs st
    have hA2 : (_apply_tracing o dt req name attrs st).2 = st1 := by rw [hA]
    constructor
    · intro r st2 hh
      rw [hA2] at hh
      unfold traceWrapper
      rw [if_neg (by rw [hskip]; exact Bool.false_ne_true), hA]
      dsimp only
      rw [hh]
      dsimp only
      obtain ⟨st3, hFin⟩ := finish_tracing_isOk o req (some r) none st2
      rw [hFin]
    · intro exc st2 hh
      rw [hA2] at hh
      unfold traceWrapper
      rw [if_neg (by rw [hskip]; exact Bool.false_ne_true), hA]
      dsimp only
      rw [hh]
      dsimp only
      obtain ⟨st3, hFin⟩ := finish_tracing_isOk o req none (some exc) st2
      rw [hFin]

theorem trace_wrapper_contract_witness :
    (traceWrapper oracleOk dtAll true "viewFoo" [] handlerOk reqA st0 = handlerOk st0) ∧
    (traceWrapper oracleOk dtPlain true "viewFoo" [] handlerOk reqA st0 =
      (.ok ⟨200⟩, (_finish_tracing oracleOk reqA (some ⟨200⟩) none
        (_apply_tracing oracleOk dtPlain reqA "viewFoo" [] st0).2).2)) ∧
    (traceWrapper oracleOk dtPlain true "viewFoo" [] handlerBoom reqA st0 =
      (.error (.other "view blew up"), (_finish_tracing oracleOk reqA none
        (some (.other "view blew up"))
        (_apply_tracing oracleOk dtPlain reqA "viewFoo" [] st0).2).2)) := by
  refine ⟨?_, ?_, ?_⟩
  · exact (trace_wrapper_contract oracleOk dtAll true "viewFoo" [] handlerOk reqA st0).1 rfl rfl
  · exact ((trace_wrapper_contract oracleOk dtPlain true "viewFoo" [] handlerOk reqA st0).2
      rfl).1 ⟨200⟩ _ rfl
  · exact ((trace_wrapper_contract oracleOk dtPlain true "viewFoo" [] handlerBoom reqA st0).2
      rfl).2 (.other "view blew up") _ rfl

/-- C9: `initialize_global_tracer` is idempotent one-time initialization:
on a first call (completion flag unset) it installs the holder's concrete
tracer implementation, if any, as the process-wide tracer and sets the
flag; every subsequent call, with any argument, changes nothing. -/
theorem init_global_tracer_once (t1 t2 : DjangoTracing) (g : GlobalState) :
    (g.complete = false →
      (init_global_tracer t1 g).complete = true ∧
      (∀ tr, t1.tracerImplementation = some tr →
        (init_global_tracer t1 g).globalTracer = tr) ∧
      (t1.tracerImplementation = none →
        (init_global_tracer t1 g).globalTracer = g.globalTracer)) ∧
    (g.complete = true → init_global_tracer t1 g = g) ∧
    (init_global_tracer t2 (init_global_tracer t1 g) = init_global_tracer t1 g) := by
  rcases g with ⟨c, gt⟩
  cases c with
  | true => simp [init_global_tracer]
  | false =>
      cases htr : t1.tracerImplementation with
      | some tr => simp [init_global_tracer, htr]
      | none => simp [init_global_tracer, htr]

theorem init_global_tracer_once_witness :
    (init_global_tracer dtPlain ⟨false, 0⟩).complete = true ∧
    (init_global_tracer dtPlain ⟨false, 0⟩).globalTracer = 7 ∧
    (init_global_tracer ⟨none, none, true⟩ ⟨true, 3⟩ = ⟨true, 3⟩) ∧
    (init_global_tracer dtAll (init_global_tracer dtPlain ⟨false, 0⟩) =
      init_global_tracer dtPlain ⟨false, 0⟩) := by
  have h1 := init_global_tracer_once dtPlain dtAll ⟨false, 0⟩
  have h2 := init_global_tracer_once ⟨none, none, true⟩ dtPlain ⟨true, 3⟩
  exact ⟨(h1.1 rfl).1, (h1.1 rfl).2.1 7 rfl, h2.2.1 rfl, h1.2.2⟩

/-- C10: `DjangoTracing.__init__` raises `ValueError` if `start_span_cb` is
provided and not callable; otherwise it succeeds, configuring the instance
with trace-all mode disabled and an empty `_current_scopes` mapping. -/
theorem djangoTracing_init_spec (tracer : Option Nat) (cb : Option PyValue) :
    (cb = some .notCallableV →
      DjangoTracing.init tracer cb = .error (.valueError "start_span_cb is not callable")) ∧
    (cb ≠ some .notCallableV →
      DjangoTracing.init tracer cb =
        .ok ({ tracerImplementation := tracer, startSpanCb := cb, traceAll := false },
             fun _ => none)) := by
  constructor
  · rintro rfl
    rfl
  · intro hne
    cases cb with
    | none => rfl
    | some v =>
        cases v with
        | callableV => rfl
        | notCallableV => exact absurd rfl hne

theorem djangoTracing_init_spec_witness :
    (DjangoTracing.init (some 7) (some .notCallableV) =
      .error (.valueError "start_span_cb is not callable")) ∧
    (DjangoTracing.init (some 7) (some .callableV) =
      .ok ({ tracerImplementation := some 7, startSpanCb := some .callableV,
             traceAll := false }, fun _ => none)) :=
  ⟨(djangoTracing_init_spec (some 7) (some .notCallableV)).1 rfl,
   (djangoTracing_init_spec (some 7) (some .callableV)).2 (by decide)⟩

/-- No request key maps to an empty scope list. -/
def noEmptyStacks (st : St) : Prop :=
  ∀ k s, st.currentScopes k = some s → s ≠ []

/-- A state whose only entry is a single active scope for request key 1. -/
def stSingle : St :=
  { currentScopes := fun k => if k = 1 then some [5] else none,
    store := fun _ => none, nextId := 9, calls := 0, events := [] }

/-- A state with two nested scopes for request key 1. -/
def stNested : St :=
  { currentScopes := fun k => if k = 1 then some [5, 7] else none,
    store := fun _ => none, nextId := 9, calls := 0, events := [] }

/-- A (not actually reachable) state carrying a dangling empty list. -/
def stEmptyList : St :=
  { currentScopes := fun k => if k = 1 then some [] else none,
    store := fun _ => none, nextId := 9, calls := 0, events := [] }

/-- C5: popping the last scope of a request removes its `_current_scopes`
entry entirely, and neither `_apply_tracing` nor `_finish_tracing` ever
leaves an empty scope list in the mapping. -/
theorem scope_entry_removed_when_empty (o : Oracle) (req : Request) (resp : Option Response)
    (err : Option PyErr) (st : St) :
    (∀ x, st.currentScopes req.key = some [x] →
      (_finish_tracing o req resp err st).2.currentScopes req.key = none) ∧
    (∀ dt name attrs, noEmptyStacks st →
      noEmptyStacks (_apply_tracing o dt req name attrs st).2) ∧
    (noEmptyStacks st → noEmptyStacks (_finish_tracing o req resp err st).2) := by
  refine ⟨?_, ?_, ?_⟩
  · intro x hx
    obtain ⟨stf, hFin, hAt, _, _⟩ :=
      finish_pop o req resp err st [x] hx (by simp)
    rw [hFin]
    simpa using hAt
  · intro dt name attrs hinv k s hks
    obtain ⟨hsc, -⟩ := apply_shape o dt req name attrs st
    rcases hsc with hsame | ⟨i, hupd⟩
    · rw [hsame] at hks
      exact hinv k s hks
    · rw [hupd] at hks
      by_cases hk : k = req.key
      · subst hk
        rw [fupdate_self] at hks
        obtain rfl : ((st.currentScopes req.key).getD [] ++ [i]) = s := by
          simpa using hks
        simp
      · rw [fupdate_ne _ _ _ _ hk] at hks
        exact hinv k s hks
  · intro hinv k s hks
    cases hkey : st.currentScopes req.key with
    | none =>
        rw [finish_absent o req resp err st hkey] at hks
        exact hinv k s hks
    | some s0 =>
        have hne : s0 ≠ [] := hinv req.key s0 hkey
        obtain ⟨stf, hFin, hAt, hOther, _⟩ := finish_pop o req resp err st s0 hkey hne
        rw [hFin] at hks
        by_cases hk : k = req.key
        · subst hk
          rw [hAt] at hks
          by_cases hrem : s0.dropLast.isEmpty
          · rw [if_pos hrem] at hks
            exact absurd hks (by simp)
          · rw [if_neg hrem] at hks
            obtain rfl : s0.dropLast = s := by simpa using hks
            intro hcontra
            rw [hcontra] at hrem
            exact hrem rfl
        · rw [hOther k hk] at hks
          exact hinv k s hks

theorem scope_entry_removed_when_empty_witness :
    ((_finish_tracing oracleOk reqA none none stSingle).2.currentScopes 1 = none) ∧
    ((_apply_tracing oracleOk dtPlain reqA "viewFoo" [] st0).2.currentScopes 1 ≠ some []) ∧
    ((_finish_tracing oracleOk reqA none none stNested).2.currentScopes 1 ≠ some []) := by
  have hinv0 : noEmptyStacks st0 := by
    intro k s h
    simp [st0] at h
  have hinvN : noEmptyStacks stNested := by
    intro k s h
    by_cases hk : k = 1
    · subst hk
      simp [stNested] at h
      simp [← h]
    · simp [stNested, hk] at h
  refine ⟨?_, ?_, ?_⟩
  · exact (scope_entry_removed_when_empty oracleOk reqA none none stSingle).1 5 rfl
  · intro hcontra
    exact ((scope_entry_removed_when_empty oracleOk reqA none none st0).2.1
      dtPlain "viewFoo" [] hinv0) 1 [] hcontra rfl
  · intro hcontra
    exact ((scope_entry_removed_when_empty oracleOk reqA none none stNested).2.2
      hinvN) 1 [] hcontra rfl

/-- C6: `get_span` returns the span of the first (outermost) scope in the
request's stack whenever at least one scope is active, `None` otherwise;
the returned span is unchanged by a nested `_apply_tracing` and by a
`_finish_tracing` that does not pop the outermost scope. -/
theorem get_span_outermost (st : St) (req : Request) :
    (∀ x s, st.currentScopes req.key = some (x :: s) → get_span st req = some x) ∧
    (st.currentScopes req.key = none → get_span st req = none) ∧
    (st.currentScopes req.key = some [] → get_span st req = none) ∧
    (∀ o dt name attrs x, get_span st req = some x →
      get_span (_apply_tracing o dt req name attrs st).2 req = some x) ∧
    (∀ o resp err x y s2, st.currentScopes req.key = some (x :: y :: s2) →
      get_span (_finish_tracing o req resp err st).2 req = some x) := by
  refine ⟨?_, ?_, ?_, ?_, ?_⟩
  · intro x s hx
    unfold get_span
    rw [hx]
  · intro hx
    unfold get_span
    rw [hx]
  · intro hx
    unfold get_span
    rw [hx]
  · intro o dt name attrs x hx
    have hstack : ∃ s, st.currentScopes req.key = some (x :: s) := by
      unfold get_span at hx
      cases hk : st.currentScopes req.key with
      | none => rw [hk] at hx; exact absurd hx (by simp)
      | some l =>
          cases l with
          | nil => rw [hk] at hx; exact absurd hx (by simp)
          | cons a t =>
              rw [hk] at hx
              simp only [Option.some.injEq] at hx
              subst hx
              exact ⟨t, rfl⟩
    obtain ⟨s, hs⟩ := hstack
    obtain ⟨hsc, -⟩ := apply_shape o dt req name attrs st
    unfold get_span
    rcases hsc with hsame | ⟨i, hupd⟩
    · rw [hsame, hs]
    · rw [hupd, fupdate_self, hs]
      simp
  · intro o resp err x y s2 hx
    obtain ⟨stf, hFin, hAt, _, _⟩ :=
      finish_pop o req resp err st (x :: y :: s2) hx (by simp)
    rw [hFin]
    unfold get_span
    rw [hAt]
    simp [List.dropLast]

theorem get_span_outermost_witness :
    (get_span stNested reqA = some 5) ∧
    (get_span st0 reqA = none) ∧
    (get_span stEmptyList reqA = none) ∧
    (get_span (_apply_tracing oracleOk dtPlain reqA "viewFoo" [] stNested).2 reqA = some 5) ∧
    (get_span (_finish_tracing oracleOk reqA none none stNested).2 reqA = some 5) := by
  have h := get_span_outermost stNested reqA
  refine ⟨h.1 5 [7] rfl, (get_span_outermost st0 reqA).2.1 rfl,
    (get_span_outermost stEmptyList reqA).2.2.1 rfl, ?_, ?_⟩
  · exact h.2.2.2.1 oracleOk dtPlain "viewFoo" [] 5 (h.1 5 [7] rfl)
  · exact h.2.2.2.2 oracleOk none none 5 7 [] rfl

/-- The world state after one successful `begin` on `reqA` from `st0`. -/
def stOne : St := (_apply_tracing oracleOk dtPlain reqA "viewFoo" [] st0).2

/-- The span record held in `stOne` for the scope it created. -/
def srOne : SpanRec :=
  { operationName := "viewFoo", parent := some 42, ctx := 0,
    tags := [("component", .str "django"), ("span.kind", .str "server"),
             ("http.method", .str "GET"), ("http.url", .str "/foo")],
    logs := [], scopeClosed := false }

/-- C7: a `_finish_tracing` call that pops a scope tags its span as errored
and logs a structured error event when `error` is given, tags it with the
response's status code when `response` is given, and in all cases closes
the popped scope (stated under the assumption that no tracer primitive
raises). -/
theorem finish_tags_and_closes (o : Oracle) (req : Request) (resp : Option Response)
    (err : Option PyErr) (st : St) (s : List Nat) (sc : Nat) (sr : SpanRec)
    (hf : ∀ n, o.failO n = none)
    (hsome : st.currentScopes req.key = some s)
    (hlast : s.getLast? = some sc)
    (hsr : st.store sc = some sr) :
    ∃ sr', (_finish_tracing o req resp err st).2.store sc = some sr' ∧
      (∀ e, err = some e → dlookup sr'.tags "error" = some (.boolV true) ∧
        [("event", LogValue.str "error"), ("error.object", LogValue.errObj e)] ∈ sr'.logs) ∧
      (∀ r, resp = some r →
        dlookup sr'.tags "http.status_code" = some (.int r.statusCode)) ∧
      sr'.scopeClosed = true := by
  obtain ⟨stf, hFin, hStore, _, _, _, _⟩ :=
    finish_noFail_close o req resp err st s sc sr hf hsome hlast hsr
  refine ⟨finishedRec sr resp err, by rw [hFin]; exact hStore, ?_, ?_, ?_⟩
  · rintro e rfl
    cases resp with
    | none =>
        constructor
        · show dlookup (dinsert sr.tags "error" (.boolV true)) "error" = _
          exact dlookup_dinsert_self sr.tags "error" (.boolV true)
        · show _ ∈ sr.logs ++ _
          simp
    | some r =>
        constructor
        · show dlookup (dinsert (dinsert sr.tags "error" (.boolV true))
            "http.status_code" (.int r.statusCode)) "error" = _
          rw [dlookup_dinsert_ne _ _ _ _ (by decide)]
          exact dlookup_dinsert_self sr.tags "error" (.boolV true)
        · show _ ∈ sr.logs ++ _
          simp
  · rintro r rfl
    cases err with
    | none =>
        show dlookup (dinsert sr.tags "http.status_code" (.int r.statusCode))
          "http.status_code" = _
        exact dlookup_dinsert_self _ _ _
    | some e =>
        show dlookup (dinsert (dinsert sr.tags "error" (.boolV true))
          "http.status_code" (.int r.statusCode)) "http.status_code" = _
        exact dlookup_dinsert_self _ _ _
  · cases resp <;> cases err <;> rfl

theorem finish_tags_and_closes_witness :
    ∃ sr', (_finish_tracing oracleOk reqA (some ⟨404⟩) (some (.other "boom"))
        stOne).2.store 0 = some sr' ∧
      dlookup sr'.tags "error" = some (.boolV true) ∧
      [("event", LogValue.str "error"), ("error.object", LogValue.errObj (.other "boom"))]
        ∈ sr'.logs ∧
      dlookup sr'.tags "http.status_code" = some (.int 404) ∧
      sr'.scopeClosed = true := by
  obtain ⟨sr', h1, h2, h3, h4⟩ := finish_tags_and_closes oracleOk reqA (some ⟨404⟩)
    (some (.other "boom")) stOne [0] 0 srOne (fun n => rfl) rfl rfl rfl
  obtain ⟨h2a, h2b⟩ := h2 (.other "boom") rfl
  exact ⟨sr', h1, h2a, h2b, h3 ⟨404⟩ rfl, h4⟩

/-- Entries produced by folding `dinsert` over a list all satisfy any
predicate that holds of the accumulator's entries and of every normalized
input pair. -/
theorem foldl_dinsert_pred (P : String × String → Prop) :
    ∀ (l : List (String × String)) (acc : List (String × String)),
      (∀ p ∈ acc, P p) → (∀ q ∈ l, P (normalizeKey q.1, q.2)) →
      ∀ p ∈ l.foldl (fun h q => dinsert h (normalizeKey q.1) q.2) acc, P p := by
  intro l
  induction l with
  | nil => intro acc hacc _ p hp; exact hacc p hp
  | cons q l ih =>
      intro acc hacc hl p hp
      refine ih (dinsert acc (normalizeKey q.1) q.2) ?_ (fun q' hq' => hl q' (by simp [hq'])) p hp
      intro p' hp'
      rcases mem_dinsert acc (normalizeKey q.1) q.2 p' hp' with h | h
      · exact hacc p' h
      · rw [h]
        exact hl q (by simp)

/-- Every entry of the normalized header dict comes from some original
`META` entry, with the same value and the normalized key. -/
theorem buildHeaders_sound (meta : List (String × String)) :
    ∀ p ∈ buildHeaders meta, ∃ k0, (k0, p.2) ∈ meta ∧ p.1 = normalizeKey k0 := by
  intro p hp
  refine foldl_dinsert_pred (fun p => ∃ k0, (k0, p.2) ∈ meta ∧ p.1 = normalizeKey k0)
    meta [] (by simp) ?_ p hp
  intro q hq
  exact ⟨q.1, hq, rfl⟩

/-- C8: `_apply_tracing` passes the tracer's `extract` the carrier built by
normalizing `request.META`: each carrier entry's key is some original key
lower-cased, with every underscore replaced by a hyphen and a leading
`http-` prefix stripped, and its value is that original entry's value,
unchanged. -/
theorem apply_normalizes_headers (o : Oracle) (dt : DjangoTracing) (req : Request)
    (name : String) (attrs : List String) (st : St) :
    (Event.extractCall (buildHeaders req.meta)
      ∈ (_apply_tracing o dt req name attrs st).2.events) ∧
    (∀ p ∈ buildHeaders req.meta, ∃ k0, (k0, p.2) ∈ req.meta ∧
      p.1 = (if "http-".data.isPrefixOf (pyReplaceUnderscore (pyLower k0)).data
             then String.mk ((pyReplaceUnderscore (pyLower k0)).data.drop 5)
             else pyReplaceUnderscore (pyLower k0))) := by
  constructor
  · obtain ⟨-, tl, hev⟩ := apply_shape o dt req name attrs st
    rw [hev]
    simp
  · intro p hp
    obtain ⟨k0, hmem, hkey⟩ := buildHeaders_sound req.meta p hp
    exact ⟨k0, hmem, hkey⟩

theorem apply_normalizes_headers_witness :
    (Event.extractCall [("user-agent", "ua")]
      ∈ (_apply_tracing oracleOk dtPlain reqA "viewFoo" [] st0).2.events) ∧
    (∃ k0, (k0, "ua") ∈ reqA.meta ∧
      "user-agent" = (if "http-".data.isPrefixOf (pyReplaceUnderscore (pyLower k0)).data
                      then String.mk ((pyReplaceUnderscore (pyLower k0)).data.drop 5)
                      else pyReplaceUnderscore (pyLower k0))) := by
  have h := apply_normalizes_headers oracleOk dtPlain reqA "viewFoo" [] st0
  have hbh : buildHeaders reqA.meta = [("user-agent", "ua")] := rfl
  constructor
  · have := h.1
    rw [hbh] at this
    exact this
  · have := h.2 ("user-agent", "ua") (by rw [hbh]; simp)
    exact this

/-- C4 counterexample: at this concrete input, extraction fails with
`InvalidCarrierException`; the newly created root span has SpanContext `0`,
and `_apply_tracing` passes `tracer.inject` the Scope object
(`InjectArg.scopeArg`) — no inject call ever carries the newly created
SpanContext (`InjectArg.contextArg`), so the claim that begin "re-injects
the newly created context" is false as stated. -/
theorem inject_receives_scope_not_context :
    (((_apply_tracing oracleBadCarrier dtPlain reqA "viewFoo" [] st0).2.store 0).map
        SpanRec.ctx = some 0) ∧
    (Event.injectCall (.scopeArg 0) [("user-agent", "ua")]
      ∈ (_apply_tracing oracleBadCarrier dtPlain reqA "viewFoo" [] st0).2.events) ∧
    (∀ c, Event.injectCall (.contextArg 0) c
      ∉ (_apply_tracing oracleBadCarrier dtPlain reqA "viewFoo" [] st0).2.events) := by
  have hev : (_apply_tracing oracleBadCarrier dtPlain reqA "viewFoo" [] st0).2.events =
      [.extractCall [("user-agent", "ua")],
       .injectCall (.scopeArg 0) [("user-agent", "ua")]] := rfl
  refine ⟨rfl, ?_, ?_⟩
  · rw [hev]
    simp
  · intro c h
    rw [hev] at h
    simp at h

/-- C4 (amended): when extraction fails with an `InvalidCarrierException` or
`SpanContextCorruptedException` (and no other primitive raises),
`_apply_tracing` still produces a valid scope by starting a root span with
no parent, does not raise, and calls `tracer.inject` passing the newly
created Scope object (rather than its SpanContext), with the normalized
local header copy as carrier. -/
theorem extract_failure_root_span (o : Oracle) (dt : DjangoTracing) (req : Request)
    (name : String) (attrs : List String) (st : St) (e : PyErr)
    (hf : ∀ n, o.failO n = none)
    (hx : o.extractO (buildHeaders req.meta) = .error e)
    (hc : failIsCatchable e = true) :
    ∃ stf tgs, _apply_tracing o dt req name attrs st = (.ok (some st.nextId), stf) ∧
      stf.store st.nextId = some { operationName := name, parent := none, ctx := st.nextId,
                                   tags := tgs, logs := [], scopeClosed := false } ∧
      stf.currentScopes req.key = some ((st.currentScopes req.key).getD [] ++ [st.nextId]) ∧
      Event.injectCall (.scopeArg st.nextId) (buildHeaders req.meta) ∈ stf.events := by
  obtain ⟨stf, tgs, hEq, hsc, hn, hev, hsr, hfr⟩ :=
    apply_noFail_fallback o dt req name attrs st e hf hx hc
  refine ⟨stf, tgs, hEq, hsr, ?_, ?_⟩
  · rw [hsc, fupdate_self]
  · rw [hev]
    simp

theorem extract_failure_root_span_witness :
    ∃ stf tgs, _apply_tracing oracleBadCarrier dtPlain reqA "viewFoo" [] st0 =
        (.ok (some 0), stf) ∧
      stf.store 0 = some { operationName := "viewFoo", parent := none, ctx := 0,
                           tags := tgs, logs := [], scopeClosed := false } ∧
      stf.currentScopes 1 = some [0] ∧
      Event.injectCall (.scopeArg 0) (buildHeaders reqA.meta) ∈ stf.events := by
  obtain ⟨stf, tgs, h1, h2, h3, h4⟩ := extract_failure_root_span oracleBadCarrier dtPlain
    reqA "viewFoo" [] st0 .invalidCarrier (fun n => rfl) rfl rfl
  exact ⟨stf, tgs, h1, h2, h3, h4⟩

/-! ### Iterated begin/end runs for the LIFO property -/

/-- Run `k` successive `begin` (`_apply_tracing`) calls for the same request. -/
def iterBegins (o : Oracle) (dt : DjangoTracing) (req : Request) (name : String)
    (attrs : List String) : Nat → St → St
  | 0, st => st
  | Nat.succ k, st =>
      iterBegins o dt req name attrs k (_apply_tracing o dt req name attrs st).2

/-- Run `n` successive `end` (`_finish_tracing`) calls for the same request. -/
def iterEnds (o : Oracle) (req : Request) : Nat → St → St
  | 0, st => st
  | Nat.succ n, st => iterEnds o req n (_finish_tracing o req none none st).2

theorem iterBegins_spec (o : Oracle) (dt : DjangoTracing) (req : Request) (name : String)
    (attrs : List String) (ctx : SpanContext)
    (hf : ∀ n, o.failO n = none)
    (hx : o.extractO (buildHeaders req.meta) = .ok ctx) :
    ∀ (k : Nat) (st : St),
      ((iterBegins o dt req name attrs k st).currentScopes req.key =
        (if k = 0 then st.currentScopes req.key
         else some ((st.currentScopes req.key).getD [] ++ List.range' st.nextId k))) ∧
      ((iterBegins o dt req name attrs k st).nextId = st.nextId + k) ∧
      (∀ i, i < k → ∃ tgs, (iterBegins o dt req name attrs k st).store (st.nextId + i) =
        some { operationName := name, parent := some ctx, ctx := st.nextId + i,
               tags := tgs, logs := [], scopeClosed := false }) ∧
      (∀ j, j < st.nextId → (iterBegins o dt req name attrs k st).store j = st.store j) := by
  intro k
  induction k with
  | zero =>
      intro st
      refine ⟨by simp [iterBegins], by simp [iterBegins], ?_, ?_⟩
      · intro i hi
        exact absurd hi (by omega)
      · intro j _
        simp [iterBegins]
  | succ k ih =>
      intro st
      obtain ⟨stf, tgs0, hEq, hsc, hn, hev, hsr, hfr⟩ :=
        apply_noFail_ok o dt req name attrs st ctx hf hx
      have hstep : iterBegins o dt req name attrs (k + 1) st =
          iterBegins o dt req name attrs k stf := by
        simp [iterBegins, hEq]
      have hstfAt : stf.currentScopes req.key =
          some ((st.currentScopes req.key).getD [] ++ [st.nextId]) := by
        rw [hsc, fupdate_self]
      obtain ⟨ih1, ih2, ih3, ih4⟩ := ih stf
      refine ⟨?_, ?_, ?_, ?_⟩
      · rw [hstep, ih1]
        cases k with
        | zero =>
            rw [if_pos rfl, if_neg (by omega), hstfAt]
            simp [List.range']
        | succ k' =>
            rw [if_neg (by omega), if_neg (by omega), hstfAt, hn]
            have : List.range' st.nextId (k' + 1 + 1) =
                st.nextId :: List.range' (st.nextId + 1) (k' + 1) := List.range'_succ _ _ _
            rw [this]
            simp
      · rw [hstep, ih2, hn]
        omega
      · intro i hi
        cases i with
        | zero =>
            refine ⟨tgs0, ?_⟩
            have hlow := ih4 st.nextId (by omega)
            rw [hstep]
            have : st.nextId + 0 = st.nextId := by omega
            rw [this, hlow, hsr]
        | succ i' =>
            have hi' : i' < k := by omega
            obtain ⟨tgs, hst⟩ := ih3 i' hi'
            have harith : stf.nextId + i' = st.nextId + (i' + 1) := by rw [hn]; omega
            rw [harith] at hst
            exact ⟨tgs, by rw [hstep]; exact hst⟩
      · intro j hj
        rw [hstep, ih4 j (by omega), hfr j (by omega)]

/-- Invariant maintained while unwinding a nest of `kk` scopes for one
request: `m` scopes (ids `a..a+m-1`, in push order) are still open on the
stack, and the already-popped ids `a+m..a+kk-1` are closed. -/
def endsInvariant (req : Request) (name : String) (ctx : SpanContext)
    (a kk m : Nat) (st : St) : Prop :=
  (st.currentScopes req.key = (if m = 0 then none else some (List.range' a m))) ∧
  (∀ i, i < m → ∃ tgs, st.store (a + i) = some
    { operationName := name, parent := some ctx, ctx := a + i,
      tags := tgs, logs := [], scopeClosed := false }) ∧
  (∀ i, m ≤ i → i < kk → ∃ sr, st.store (a + i) = some sr ∧ sr.scopeClosed = true)

theorem endsInvariant_step (o : Oracle) (req : Request) (name : String) (ctx : SpanContext)
    (a kk m : Nat) (st : St) (hf : ∀ n, o.failO n = none) (hm : 1 ≤ m)
    (hinv : endsInvariant req name ctx a kk m st) :
    endsInvariant req name ctx a kk (m - 1) (_finish_tracing o req none none st).2 := by
  obtain ⟨hstack, hopen, hclosed⟩ := hinv
  rw [if_neg (by omega)] at hstack
  have hconcat : List.range' a m = List.range' a (m - 1) ++ [a + (m - 1)] := by
    have h1 : m = (m - 1) + 1 := by omega
    rw [h1, List.range'_concat]
    simp
  have hlast : (List.range' a m).getLast? = some (a + (m - 1)) := by
    rw [hconcat]
    exact List.getLast?_concat _
  have hdrop : (List.range' a m).dropLast = List.range' a (m - 1) := by
    rw [hconcat]
    exact List.dropLast_concat
  obtain ⟨tgs, hsr⟩ := hopen (m - 1) (by omega)
  obtain ⟨stf, hFin, hStore, hFrame, hAt, hOther, hN⟩ :=
    finish_noFail_close o req none none st (List.range' a m) (a + (m - 1)) _ hf hstack
      hlast hsr
  rw [hFin]
  dsimp only
  refine ⟨?_, ?_, ?_⟩
  · rw [hAt, hdrop]
    by_cases hm1 : m - 1 = 0
    · rw [if_pos (by simp [List.range'_eq_nil, hm1]), if_pos hm1]
    · rw [if_neg (by simp [List.range'_eq_nil, hm1]), if_neg hm1]
  · intro i hi
    obtain ⟨tgs', hst⟩ := hopen i (by omega)
    refine ⟨tgs', ?_⟩
    rw [hFrame (a + i) (by omega), hst]
  · intro i hi1 hi2
    by_cases heq : i = m - 1
    · subst heq
      refine ⟨finishedRec { operationName := name, parent := some ctx,
                            ctx := a + (m - 1), tags := tgs, logs := [],
                            scopeClosed := false } none none, hStore, rfl⟩
    · obtain ⟨sr, hst, hcl⟩ := hclosed i (by omega) hi2
      exact ⟨sr, by rw [hFrame (a + i) (by omega), hst], hcl⟩

theorem iterEnds_inv (o : Oracle) (req : Request) (name : String) (ctx : SpanContext)
    (a kk : Nat) (hf : ∀ n, o.failO n = none) :
    ∀ (n m : Nat) (st : St), endsInvariant req name ctx a kk m st → n ≤ m →
      endsInvariant req name ctx a kk (m - n) (iterEnds o req n st) := by
  intro n
  induction n with
  | zero =>
      intro m st hinv _
      simpa [iterEnds] using hinv
  | succ n ih =>
      intro m st hinv hnm
      have hstep : iterEnds o req (n + 1) st =
          iterEnds o req n (_finish_tracing o req none none st).2 := by
        simp [iterEnds]
      rw [hstep]
      have h1 := endsInvariant_step o req name ctx a kk m st hf (by omega) hinv
      have h2 := ih (m - 1) (_finish_tracing o req none none st).2 h1 (by omega)
      have harith : m - 1 - n = m - (n + 1) := by omega
      rw [harith] at h2
      exact h2

/-- C1: per request key, each `begin` (`_apply_tracing`) pushes exactly one
scope at the end of that key's stack, each matching `end`
(`_finish_tracing`) pops exactly the scope at the end of the stack, and
over a nest of `k` begins followed by ends, the (n+1)-th end pops and
closes precisely the scope pushed by the (k−n)-th begin (ids
`a, a+1, …, a+k−1` are pushed in order; the (n+1)-th end closes
`a+(k−n−1)`), i.e. strict LIFO.  Stated under the assumption that no
tracer primitive raises and extraction succeeds. -/
theorem scope_stack_lifo (o : Oracle) (dt : DjangoTracing) (req : Request) (name : String)
    (attrs : List String) (ctx : SpanContext)
    (hf : ∀ n, o.failO n = none)
    (hx : o.extractO (buildHeaders req.meta) = .ok ctx) :
    (∀ st : St, (_apply_tracing o dt req name attrs st).2.currentScopes req.key =
        some ((st.currentScopes req.key).getD [] ++ [st.nextId])) ∧
    (∀ (st : St) (s : List Nat), st.currentScopes req.key = some s → s ≠ [] →
      (_finish_tracing o req none none st).2.currentScopes req.key =
        (if s.dropLast.isEmpty then none else some s.dropLast)) ∧
    (∀ (k : Nat) (st : St), st.currentScopes req.key = none →
      (∀ n, n ≤ k →
        (iterEnds o req n (iterBegins o dt req name attrs k st)).currentScopes req.key =
          (if k - n = 0 then none else some (List.range' st.nextId (k - n)))) ∧
      (∀ n, n < k →
        (∃ sr, (iterEnds o req n (iterBegins o dt req name attrs k st)).store
            (st.nextId + (k - n - 1)) = some sr ∧ sr.scopeClosed = false) ∧
        (∃ sr', (iterEnds o req (n + 1) (iterBegins o dt req name attrs k st)).store
            (st.nextId + (k - n - 1)) = some sr' ∧ sr'.scopeClosed = true))) := by
  refine ⟨?_, ?_, ?_⟩
  · intro st
    obtain ⟨stf, tgs, hEq, hsc, -, -, -, -⟩ := apply_noFail_ok o dt req name attrs st ctx hf hx
    have h2 : (_apply_tracing o dt req name attrs st).2 = stf := by rw [hEq]
    rw [h2, hsc, fupdate_self]
  · intro st s hsome hne
    obtain ⟨stf, hFin, hAt, -, -⟩ := finish_pop o req none none st s hsome hne
    have h2 : (_finish_tracing o req none none st).2 = stf := by rw [hFin]
    rw [h2]
    exact hAt
  · intro k st hnone
    obtain ⟨hb1, hb2, hb3, hb4⟩ := iterBegins_spec o dt req name attrs ctx hf hx k st
    have hinv0 : endsInvariant req name ctx st.nextId k k
        (iterBegins o dt req name attrs k st) := by
      refine ⟨?_, hb3, ?_⟩
      · rw [hb1]
        cases k with
        | zero => rw [if_pos rfl, if_pos rfl, hnone]
        | succ k' =>
            rw [if_neg (by omega), if_neg (by omega), hnone]
            simp
      · intro i hi1 hi2
        exact absurd hi2 (by omega)
    have hinvN : ∀ n, n ≤ k → endsInvariant req name ctx st.nextId k (k - n)
        (iterEnds o req n (iterBegins o dt req name attrs k st)) := by
      intro n hn
      exact iterEnds_inv o req name ctx st.nextId k hf n k _ hinv0 hn
    constructor
    · intro n hn
      exact (hinvN n hn).1
    · intro n hn
      constructor
      · obtain ⟨tgs, hst⟩ := (hinvN n (by omega)).2.1 (k - n - 1) (by omega)
        exact ⟨_, hst, rfl⟩
      · have h2 := (hinvN (n + 1) (by omega)).2.2 (k - n - 1) (by omega) (by omega)
        exact h2

theorem scope_stack_lifo_witness :
    ((_apply_tracing oracleOk dtPlain reqA "viewFoo" [] stNested).2.currentScopes 1 =
      some [5, 7, 9]) ∧
    ((_finish_tracing oracleOk reqA none none stNested).2.currentScopes 1 = some [5]) ∧
    ((iterEnds oracleOk reqA 0
        (iterBegins oracleOk dtPlain reqA "viewFoo" [] 2 st0)).currentScopes 1 =
      some [0, 1]) ∧
    ((iterEnds oracleOk reqA 1
        (iterBegins oracleOk dtPlain reqA "viewFoo" [] 2 st0)).currentScopes 1 =
      some [0]) ∧
    ((iterEnds oracleOk reqA 2
        (iterBegins oracleOk dtPlain reqA "viewFoo" [] 2 st0)).currentScopes 1 = none) ∧
    (∃ sr, (iterEnds oracleOk reqA 0
        (iterBegins oracleOk dtPlain reqA "viewFoo" [] 2 st0)).store 1 = some sr ∧
      sr.scopeClosed = false) ∧
    (∃ sr', (iterEnds oracleOk reqA 1
        (iterBegins oracleOk dtPlain reqA "viewFoo" [] 2 st0)).store 1 = some sr' ∧
      sr'.scopeClosed = true) := by
  have h := scope_stack_lifo oracleOk dtPlain reqA "viewFoo" [] 42 (fun n => rfl) rfl
  have h3 := h.2.2 2 st0 rfl
  exact ⟨h.1 stNested, h.2.1 stNested [5, 7] rfl (by simp),
    h3.1 0 (by omega), h3.1 1 (by omega), h3.1 2 (by omega),
    (h3.2 0 (by omega)).1, (h3.2 0 (by omega)).2⟩

end DjangoOpentracing
